import Mathlib

set_option maxHeartbeats 1600000
set_option maxRecDepth 8000

/-!
Verification of the Viper-to-IR translator (files `scripts/viper_parser.py` and
`parser/viper_parser.py`) against its natural-language specification.

The Python AST nodes consumed by the translator are embedded as inductive types
whose constructors keep the `ast` class names.  Numeric literals carry the exact
rational value of the IEEE-754 double stored in the node, together with the
line/column needed for the raw-source hex-literal recovery.  Python exceptions
(both `ParserException` and attribute/index errors from shape violations) are
modelled with `Except String`.  The mutable global `stmtsIndent` is modelled by
explicit state passing of the indent string.  Recursive translators take a fuel
argument so that they are structurally recursive and evaluate inside the kernel;
fuel exhaustion is one more error case and all theorems hold for every fuel.
-/

deriving instance DecidableEq for Except

/-- Exact rational number as an unnormalised numerator/denominator pair.
Models Python `float` values (exactly, as dyadic rationals) and `Decimal`
values.  All constructions keep `den` positive. -/
structure Frac where
  num : ℤ
  den : ℤ
  deriving DecidableEq

namespace Frac

/-- Value equality of two fractions (cross multiplication). -/
def veq (x y : Frac) : Prop := x.num * y.den = y.num * x.den

instance (x y : Frac) : Decidable (veq x y) := by unfold veq; infer_instance

/-- Multiplication by an integer. -/
def mulI (x : Frac) (k : ℤ) : Frac := ⟨x.num * k, x.den⟩

/-- Whether the value is an integer, i.e. the denominator divides the
numerator.  For a positive denominator this is exactly Python's
`num % 1 == 0` (float `%` is exact here). -/
def isIntB (x : Frac) : Bool := x.num.emod x.den == 0

/-- Order test `x ≤ y` for fractions with positive denominators. -/
def leB (x y : Frac) : Bool := decide (x.num * y.den ≤ y.num * x.den)

end Frac

/-- Number of binary digits of `n` (0 for 0), fuel-driven so that it reduces
in the kernel. -/
def nbitsF : ℕ → ℕ → ℕ
  | 0, _ => 0
  | fuel + 1, n => if n = 0 then 0 else nbitsF fuel (n / 2) + 1

/-- Number of binary digits of `n`. -/
def nbits (n : ℕ) : ℕ := nbitsF (n + 1) n

/-- Number of decimal digits of `n` (0 for 0), fuel-driven. -/
def ndigitsF : ℕ → ℕ → ℕ
  | 0, _ => 0
  | fuel + 1, n => if n = 0 then 0 else ndigitsF fuel (n / 10) + 1

/-- Number of decimal digits of `n`. -/
def ndigits (n : ℕ) : ℕ := ndigitsF (n + 1) n

/-- The fraction `2 ^ e` for an integer exponent. -/
def pow2F (e : ℤ) : Frac :=
  if 0 ≤ e then ⟨((2 ^ e.toNat : ℕ) : ℤ), 1⟩ else ⟨1, ((2 ^ (-e).toNat : ℕ) : ℤ)⟩

/-- The fraction `10 ^ e` for an integer exponent. -/
def pow10F (e : ℤ) : Frac :=
  if 0 ≤ e then ⟨((10 ^ e.toNat : ℕ) : ℤ), 1⟩ else ⟨1, ((10 ^ (-e).toNat : ℕ) : ℤ)⟩

/-- Floor of the base-2 logarithm of a positive fraction: the candidate from
the bit lengths of numerator and denominator is off by at most one and is
corrected by one exact comparison. -/
def floorLog2 (s : Frac) : ℤ :=
  let e0 : ℤ := (nbits s.num.natAbs : ℤ) - (nbits s.den.natAbs : ℤ)
  if (pow2F e0).leB s then e0 else e0 - 1

/-- Floor of the base-10 logarithm of a positive fraction. -/
def floorLog10 (s : Frac) : ℤ :=
  let e0 : ℤ := (ndigits s.num.natAbs : ℤ) - (ndigits s.den.natAbs : ℤ)
  if (pow10F e0).leB s then e0 else e0 - 1

/-- Round a fraction with positive denominator to the nearest integer, ties to
even (the rounding used both by IEEE-754 and by Python's `Decimal` default
context and numeric formatting). -/
def roundHalfEvenF (x : Frac) : ℤ :=
  let n := x.num.ediv x.den
  let r := x.num.emod x.den
  if 2 * r < x.den then n
  else if x.den < 2 * r then n + 1
  else if n.emod 2 = 0 then n else n + 1

/-- Round an exact rational to the nearest IEEE-754 binary64 value (round half
to even on a 53-bit significand).  Overflow and subnormals are not modelled;
all values arising in this development are far inside the normal range.  This
models the rounding performed by every Python float arithmetic operation. -/
def roundDouble (q : Frac) : Frac :=
  if q.num = 0 then ⟨0, 1⟩ else
  let s : Frac := ⟨(q.num.natAbs : ℤ), q.den⟩
  let e : ℤ := floorLog2 s
  let m : ℤ :=
    if 52 ≤ e then roundHalfEvenF ⟨s.num, s.den * ((2 ^ (e - 52).toNat : ℕ) : ℤ)⟩
    else roundHalfEvenF ⟨s.num * ((2 ^ (52 - e).toNat : ℕ) : ℤ), s.den⟩
  let r : Frac :=
    if 52 ≤ e then ⟨m * ((2 ^ (e - 52).toNat : ℕ) : ℤ), 1⟩
    else ⟨m, ((2 ^ (52 - e).toNat : ℕ) : ℤ)⟩
  if q.num < 0 then ⟨-r.num, r.den⟩ else r

/-- Round an exact rational to 28 significant decimal digits, ties to even:
the default `decimal.Context` applied by Python to every `Decimal` arithmetic
operation. -/
def roundDec28 (q : Frac) : Frac :=
  if q.num = 0 then ⟨0, 1⟩ else
  let s : Frac := ⟨(q.num.natAbs : ℤ), q.den⟩
  let e : ℤ := floorLog10 s
  let m : ℤ :=
    if 27 ≤ e then roundHalfEvenF ⟨s.num, s.den * ((10 ^ (e - 27).toNat : ℕ) : ℤ)⟩
    else roundHalfEvenF ⟨s.num * ((10 ^ (27 - e).toNat : ℕ) : ℤ), s.den⟩
  let r : Frac :=
    if 27 ≤ e then ⟨m * ((10 ^ (e - 27).toNat : ℕ) : ℤ), 1⟩
    else ⟨m, ((10 ^ (27 - e).toNat : ℕ) : ℤ)⟩
  if q.num < 0 then ⟨-r.num, r.den⟩ else r

/-- Python `ast.operator` (binary arithmetic/bitwise operators). -/
inductive Operator
  | Add | BitAnd | BitOr | BitXor | Div | FloorDiv | LShift | MatMult
  | Mod | Mult | Pow | RShift | Sub
  deriving DecidableEq

/-- Python `ast.cmpop` (comparison operators). -/
inductive Cmpop
  | Eq | Gt | GtE | In | Is | IsNot | Lt | LtE | NotEq | NotIn
  deriving DecidableEq

/-- Python `ast.boolop`. -/
inductive Boolop
  | And | Or
  deriving DecidableEq

/-- Python `ast.unaryop`. -/
inductive Unaryop
  | Invert | Not | UAdd | USub
  deriving DecidableEq

/-- The value stored in an `ast.Num` node: an `int` or a `float` (the float is
carried as the exact rational value of the IEEE-754 double). -/
inductive NumVal
  | Int (n : ℤ)
  | Float (v : Frac)
  deriving DecidableEq

/-- Python expression nodes, with the `ast` class names.  `Num` carries the
node's `lineno`/`col_offset`, which the translator uses to re-scan the raw
source text for a `0x` prefix. -/
inductive Node
  | Name (id : String)
  | Num (n : NumVal) (lineno : ℕ) (col_offset : ℕ)
  | Str (s : String)
  | NameConstant (value : Bool)
  | Attribute (value : Node) (attr : String)
  | Subscript (value : Node) (slice : Node)
  | Index (value : Node)
  | List (elts : List Node)
  | Dict (keys : List Node) (values : List Node)
  | BinOp (left : Node) (op : Operator) (right : Node)
  | BoolOp (op : Boolop) (values : List Node)
  | UnaryOp (op : Unaryop) (operand : Node)
  | Compare (left : Node) (ops : List Cmpop) (comparators : List Node)
  | Call (func : Node) (args : List Node) (keywords : List (String × Node))

/-- Python function-parameter node (`ast.arg`). -/
structure FuncArg where
  arg : String
  annot : Option Node

/-- Python statement nodes, with the `ast` class names.  `While` is a statement
shape the translator has no mapping for. -/
inductive Stmt
  | AnnAssign (target : Node) (annot : Node)
  | Assign (targets : List Node) (value : Node)
  | AugAssign (target : Node) (op : Operator) (value : Node)
  | If (test : Node) (body : List Stmt) (orelse : List Stmt)
  | For (target : Node) (iter : Node) (body : List Stmt)
  | While (test : Node) (body : List Stmt)
  | Break
  | Pass
  | Return (value : Option Node)
  | Assert (test : Node)
  | Expr (value : Node)
  | FunctionDef (name : String) (args : List FuncArg) (decorator_list : List Node)
      (returns : Option Node) (body : List Stmt)

/-- Characters accepted by the hex-literal scanner: the source string
`'0123456789abcdefABCDEF'`. -/
def hexDigits : List Char := "0123456789abcdefABCDEF".toList

/-- The `while` loop of `get_original_if_0x_prefixed`: starting from counter
`t`, advance while position `t + 2` exists and holds a hex digit.  Fuel-driven
for kernel reduction; called with fuel `≥ cs.length`. -/
def hexLoop (cs : List Char) : ℕ → ℕ → ℕ
  | 0, t => t
  | fuel + 1, t =>
    if t + 2 < cs.length then
      if hexDigits.contains (cs.getD (t + 2) ' ') then hexLoop cs fuel (t + 1) else t
    else t

/-- Faithful embedding of `get_original_if_0x_prefixed` (identical in both
source files): look up the raw source line of the node, slice from the node's
column, and if it starts with `0x` return the prefix together with the maximal
run of hex digits after it.  Source lines are lists of characters. -/
def get_original_if_0x_prefixed (inputLines : List (List Char)) (lineno col_offset : ℕ) :
    Option (List Char) :=
  let context_slice := (inputLines.getD (lineno - 1) []).drop col_offset
  if context_slice.take 2 = ['0', 'x'] then
    some (context_slice.take (hexLoop context_slice context_slice.length 0 + 2))
  else
    none

namespace scripts

/-- Error raised when the structural fuel of the embedding runs out.  The
source recursion always terminates on finite trees, so any fixed tree is
translated exactly once fuel exceeds its depth; all theorems below hold for
every fuel value. -/
def fuelErr : String := "RecursionFuelExhausted"

/-- Constant taken from the viper compiler. -/
def DECIMAL_DIVISOR : ℕ := 10000000000

/-- The `while` loop of `parseFixed10Const`: as long as the float is not an
integer and the divisor is below `DECIMAL_DIVISOR`, multiply the float by ten
(a rounding IEEE-754 operation) and the divisor by ten.  At most ten
iterations can run, so fuel 11 is never exhausted. -/
def fixed10Loop : ℕ → Frac → ℕ → Frac × ℕ
  | 0, num, divisor => (num, divisor)
  | fuel + 1, num, divisor =>
    if num.isIntB = false ∧ divisor < DECIMAL_DIVISOR then
      fixed10Loop fuel (roundDouble (num.mulI 10)) (divisor * 10)
    else (num, divisor)

/-- Embedding of `scripts/viper_parser.py` `parseFixed10Const`: `node.n` is the
float value; `'{0:.0f}'` formatting rounds the final float half-to-even to an
integer. -/
def parseFixed10Const (n : Frac) : String :=
  let r := fixed10Loop 11 n 1
  "%fixed10(" ++ toString (roundHalfEvenF r.1) ++ ", " ++ toString r.2 ++ ")"

/-- Embedding of `parseConst`: ints consult the raw source for a `0x` prefix,
floats go through the fixed-point rendering, strings are quoted, and
`NameConstant` booleans use the bool map. -/
def parseConst (inputLines : List (List Char)) : Node → Except String String
  | .Num (.Int n) lineno col_offset =>
    match get_original_if_0x_prefixed inputLines lineno col_offset with
    | none => .ok (toString n)
    | some hexFormat => .ok ("%hex(\"" ++ String.mk (hexFormat.drop 2) ++ "\")")
  | .Num (.Float v) _ _ => .ok (parseFixed10Const v)
  | .Str s => .ok ("\"" ++ s ++ "\"")
  | .NameConstant value => .ok (if value then "true" else "false")
  | _ => .error "Unsupported Const format"

/-- Embedding of `parseBaseType`. -/
def parseBaseType : Node → Except String String
  | .Name id => .ok ("%" ++ id)
  | _ => .error "BaseType parsing not yet implemented"

/-- Rendering of a numeric value interpolated directly by `"{}".format`; the
float case approximates Python float repr (it never arises in the claims). -/
def numValRepr : NumVal → String
  | .Int n => toString n
  | .Float v => toString v.num ++ "/" ++ toString v.den

/-- Embedding of `parseUnit`: names are base units, numbers support the
exponent of `%upow`, binary operations use the unit-operator map (`*`, `/`,
`**`; anything else is a `KeyError`). -/
def parseUnit : ℕ → Node → Except String String
  | 0, _ => .error fuelErr
  | fuel + 1, node =>
    match node with
    | .Name id => .ok ("%" ++ id)
    | .Num n _ _ => .ok (numValRepr n)
    | .BinOp left op right =>
      match (match op with
             | .Mult => some "%umul"
             | .Div => some "%udiv"
             | .Pow => some "%upow"
             | _ => none) with
      | some o => do
        let ls ← parseUnit fuel left
        let rs ← parseUnit fuel right
        .ok (o ++ "(" ++ ls ++ ", " ++ rs ++ ")")
      | none => .error "KeyError: unitOpMap"
    | _ => .error "Unsupported Unit format"

mutual

/-- Embedding of `parseType` (the argument is `Option Node` because the source
accepts `None` for a missing return annotation).  Accepted shapes: `None`,
name, the `bytes <= N` comparison, subscript (list or map), dict literal
(struct) and call (unit type). -/
def parseType (L : List (List Char)) : ℕ → Option Node → Except String String
  | 0, _ => .error fuelErr
  | fuel + 1, node =>
    match node with
    | none => .ok "%void"
    | some n =>
      match n with
      | .Name _ => parseBaseType n
      | .Compare left _ comparators =>
        match left with
        | .Name lid =>
          if lid = "bytes" then
            match comparators with
            | c0 :: _ =>
              match c0 with
              | .Num k _ _ => .ok ("%bytesT(" ++ numValRepr k ++ ")")
              | _ => .error "AttributeError: comparators[0].n"
            | [] => .error "IndexError: comparators"
          else .error "Type parsing not yet implemented"
        | _ => .error "Type parsing not yet implemented"
      | .Subscript value slice =>
        match slice with
        | .Index iv =>
          match iv with
          | .Num _ _ _ => do
            let t ← parseType L fuel (some value)
            let c ← parseConst L iv
            .ok ("%listT(" ++ t ++ ", " ++ c ++ ")")
          | _ => do
            let t ← parseType L fuel (some value)
            let k ← parseType L fuel (some iv)
            .ok ("%mapT(" ++ t ++ ", " ++ k ++ ")")
        | _ => .error "AttributeError: slice.value"
      | .Dict keys values => do
        let ds ← parseVarDecls L fuel keys values ""
        .ok ("%structT(" ++ ds ++ ")")
      | .Call func args _ =>
        match args.getLast? with
        | some la =>
          let positional :=
            match la with
            | .Name lid => if lid = "positional" then "true" else "false"
            | _ => "false"
          match args with
          | a0 :: _ => do
            let ft ← parseType L fuel (some func)
            let u ← parseUnit fuel a0
            .ok ("%unitT(" ++ ft ++ ", " ++ u ++ ", " ++ positional ++ ")")
          | [] => .error "IndexError: args"
        | none => .error "IndexError: args"
      | _ => .error "Type parsing not yet implemented"

/-- Embedding of `parseVarDecl2`: `%vdecl(name, type)`. -/
def parseVarDecl2 (L : List (List Char)) : ℕ → Node → Node → Except String String
  | 0, _, _ => .error fuelErr
  | fuel + 1, key, value =>
    match key with
    | .Name kid => do
      let t ← parseType L fuel (some value)
      .ok ("%vdecl(" ++ kid ++ ", " ++ t ++ ")")
    | _ => .error "AttributeError: key.id"

/-- Embedding of `parseVarDecls`: walk the key/value lists of a dict literal
accumulating space-separated `%vdecl` terms. -/
def parseVarDecls (L : List (List Char)) : ℕ → List Node → List Node → String → Except String String
  | 0, _, _, _ => .error fuelErr
  | fuel + 1, keys, values, rez =>
    match keys with
    | [] => .ok rez
    | k :: ks =>
      match values with
      | [] => .error "IndexError: values"
      | v :: vs => do
        let d ← parseVarDecl2 L fuel k v
        parseVarDecls L fuel ks vs (if rez = "" then d else rez ++ " " ++ d)

end

/-- Embedding of the generic `parseList` helper for stateless element
translators: first element prefixed by `initSeparator`, later ones by
`separator`, empty result replaced by `emptyCase`. -/
def parseListE (f : α → Except String String) (separator initSeparator emptyCase : String)
    (nodeList : List α) : Except String String := do
  let rez ← go nodeList "" true
  .ok (if rez = "" then emptyCase else rez)
where
  go : List α → String → Bool → Except String String
    | [], rez, _ => .ok rez
    | x :: xs, rez, first => do
      let s ← f x
      go xs (rez ++ (if first then initSeparator else separator) ++ s) false

/-- Embedding of `parseEventParam`: `key: indexed(type)` or `key: type`. -/
def parseEventParam (L : List (List Char)) (fuel : ℕ) (key value : Node) : Except String String :=
  match key with
  | .Name kid =>
    match value with
    | .Call func args _ =>
      match func with
      | .Name fid =>
        if fid = "indexed" then
          match args with
          | a0 :: _ => do
            let t ← parseType L fuel (some a0)
            .ok ("%eparam(" ++ kid ++ ", " ++ t ++ ", true)")
          | [] => .error "IndexError: args"
        else .error "Unsupported EventParam format"
      | _ => .error "AttributeError: func.id"
    | .Name _ => do
      let t ← parseType L fuel (some value)
      .ok ("%eparam(" ++ kid ++ ", " ++ t ++ ", false)")
    | _ => .error "Unsupported EventParam format"
  | _ => .error "AttributeError: key.id"

/-- Embedding of `parseEventParams` over the dict literal of an event
annotation. -/
def parseEventParams (L : List (List Char)) (fuel : ℕ) : Node → Except String String
  | .Dict keys values => go keys values ""
  | _ => .error "AttributeError: keys"
where
  go : List Node → List Node → String → Except String String
    | [], _, rez => .ok rez
    | _ :: _, [], _ => .error "IndexError: values"
    | k :: ks, v :: vs, rez => do
      let p ← parseEventParam L fuel k v
      go ks vs (if rez = "" then p else rez ++ " " ++ p)

/-- Embedding of `parseEvent`: `  %event(name, params)` from an annotated
assignment whose annotation is the `__log__(...)` call. -/
def parseEvent (L : List (List Char)) (fuel : ℕ) : Stmt → Except String String
  | .AnnAssign target ann =>
    match target with
    | .Name tid =>
      match ann with
      | .Call _ args _ =>
        match args with
        | a0 :: _ => do
          let ps ← parseEventParams L fuel a0
          .ok ("  %event(" ++ tid ++ ", " ++ ps ++ ")")
        | [] => .error "IndexError: annotation.args"
      | _ => .error "AttributeError: annotation.args"
    | _ => .error "AttributeError: target.id"
  | _ => .error "AttributeError: target"

/-- Embedding of `parseGlobal`: a call-shaped annotation is a visibility
wrapper (`%<wrapper>`), any other annotation renders with `%private`. -/
def parseGlobal (L : List (List Char)) (fuel : ℕ) : Stmt → Except String String
  | .AnnAssign target ann =>
    match ann with
    | .Call func args _ =>
      match target with
      | .Name tid =>
        match args with
        | a0 :: _ => do
          let t ← parseType L fuel (some a0)
          match func with
          | .Name fid => .ok ("  %svdecl(" ++ tid ++ ", " ++ t ++ ", %" ++ fid ++ ")")
          | _ => .error "AttributeError: annotation.func.id"
        | [] => .error "IndexError: annotation.args"
      | _ => .error "AttributeError: target.id"
    | _ =>
      match target with
      | .Name tid => do
        let t ← parseType L fuel (some ann)
        .ok ("  %svdecl(" ++ tid ++ ", " ++ t ++ ", %private)")
      | _ => .error "AttributeError: target.id"
  | _ => .error "AttributeError: target"

/-- Embedding of `parseDecorator`. -/
def parseDecorator : Node → Except String String
  | .Name id => .ok ("%@" ++ id)
  | _ => .error "AttributeError: id"

/-- Embedding of `parseDecorators`. -/
def parseDecorators (decorator_list : List Node) : Except String String :=
  parseListE parseDecorator " " "" "" decorator_list

/-- Embedding of `parseParam`. -/
def parseParam (L : List (List Char)) (fuel : ℕ) (arg : FuncArg) : Except String String := do
  let t ← parseType L fuel arg.annot
  .ok ("%param(" ++ arg.arg ++ ", " ++ t ++ ")")

/-- Embedding of `parseParams`. -/
def parseParams (L : List (List Char)) (fuel : ℕ) (args : List FuncArg) : Except String String :=
  parseListE (parseParam L fuel) " " "" "" args

/-- Embedding of `tryParseReservedExpr`: the reserved-property whitelist. -/
def tryParseReservedExpr : Node → Option String
  | .Attribute (.Name vid) attr =>
    let values : Option (List String) :=
      if vid = "msg" then some ["sender", "value", "gas"]
      else if vid = "block" then some ["difficulty", "timestamp", "coinbase", "number", "prevhash"]
      else if vid = "tx" then some ["origin"]
      else none
    match values with
    | some vs => if attr ∈ vs then some ("%" ++ vid ++ "." ++ attr) else none
    | none => none
  | _ => none

/-- Embedding of `parseBinOp`; the source map covers every `ast.operator`, so
the raising branch is dead and the function is total. -/
def parseBinOp : Operator → String
  | .Add => "+"
  | .BitAnd => "&"
  | .BitOr => "|"
  | .BitXor => "^"
  | .Div => "/"
  | .FloorDiv => "//"
  | .LShift => "<<"
  | .MatMult => "@"
  | .Mod => "%"
  | .Mult => "*"
  | .Pow => "**"
  | .RShift => ">>"
  | .Sub => "-"

/-- Embedding of `parseCompareOp`: `Is`, `IsNot` and `NotIn` map to `None` and
raise. -/
def parseCompareOp : Cmpop → Except String String
  | .Eq => .ok "%eq"
  | .Gt => .ok "%gt"
  | .GtE => .ok "%ge"
  | .In => .ok "%in"
  | .Lt => .ok "%lt"
  | .LtE => .ok "%le"
  | .NotEq => .ok "%ne"
  | _ => .error "Unsupported CompareOp"

/-- Embedding of `parseBoolOp`; both boolean operators are mapped. -/
def parseBoolOp : Boolop → String
  | .And => "%and"
  | .Or => "%or"

/-- Embedding of `parseUnaryOp`: `Invert` and `UAdd` map to `None` and
raise. -/
def parseUnaryOp : Unaryop → Except String String
  | .Not => .ok "%not"
  | .USub => .ok "%neg"
  | _ => .error "Unsupported UnaryOp"

/-- Embedding of `parseAugAssignOp`. -/
def parseAugAssignOp (op : Operator) : String := parseBinOp op ++ "="

mutual

/-- Embedding of `parseExpr`: shape dispatch in the source order. -/
def parseExpr (L : List (List Char)) : ℕ → Node → Except String String
  | 0, _ => .error fuelErr
  | fuel + 1, node =>
    match node with
    | .Index value => parseExpr L fuel value
    | .Num _ _ _ => parseConst L node
    | .Str _ => parseConst L node
    | .NameConstant _ => parseConst L node
    | .Name id =>
      if id = "true" ∨ id = "false" then parseConst L node
      else if id = "self" then .ok "%self"
      else parseVar L fuel node
    | .BinOp left op right => do
      let ls ← parseExpr L fuel left
      let rs ← parseExpr L fuel right
      .ok ("%binop(" ++ parseBinOp op ++ ", " ++ ls ++ ", " ++ rs ++ ")")
    | .Compare left ops comparators =>
      if 1 < ops.length ∨ 1 < comparators.length then
        .error "Unsupported complex comparator format"
      else
        match ops with
        | op0 :: _ =>
          match comparators with
          | c0 :: _ => do
            let os ← parseCompareOp op0
            let ls ← parseExpr L fuel left
            let cs ← parseExpr L fuel c0
            .ok ("%compareop(" ++ os ++ ", " ++ ls ++ ", " ++ cs ++ ")")
          | [] => .error "IndexError: comparators"
        | [] => .error "IndexError: ops"
    | .BoolOp op values =>
      match values with
      | v0 :: v1 :: _ => do
        let a ← parseExpr L fuel v0
        let b ← parseExpr L fuel v1
        .ok ("%boolop(" ++ parseBoolOp op ++ ", " ++ a ++ ", " ++ b ++ ")")
      | _ => .error "IndexError: values"
    | .UnaryOp op operand => do
      let os ← parseUnaryOp op
      let es ← parseExpr L fuel operand
      .ok ("%unaryop(" ++ os ++ ", " ++ es ++ ")")
    | .Attribute value _ =>
      match value with
      | .Name _ =>
        match tryParseReservedExpr node with
        | some rez => .ok rez
        | none => parseVar L fuel node
      | _ => parseVar L fuel node
    | .Subscript _ _ => parseVar L fuel node
    | .List elts => do
      let es ← parseExprList L fuel " " elts "" true
      .ok ("%list(" ++ es ++ ")")
    | .Call func args _ =>
      match func with
      | .Name _ => parseCallExpr L fuel node
      | .Attribute fval fattr =>
        match fval with
        | .Name fvid =>
          if fvid = "self" then do
            let es ← parseExprList L fuel " " args "" true
            .ok ("%icall(" ++ fattr ++ ", " ++ es ++ ")")
          else .error "Unsupported Expr format"
        | _ => .error "Unsupported Expr format"
      | _ => .error "Unsupported Expr format"
    | _ => .error "Unsupported Expr format"

/-- Embedding of `parseVar`: plain names, (unwrapped) indices, attribute
chains (`self.x` as a storage variable) and subscripts. -/
def parseVar (L : List (List Char)) : ℕ → Node → Except String String
  | 0, _ => .error fuelErr
  | fuel + 1, var =>
    match var with
    | .Name id => .ok ("%var(" ++ id ++ ")")
    | .Index value => parseVar L fuel value
    | .Attribute value attr =>
      match value with
      | .Name vid =>
        if vid = "self" then .ok ("%svar(" ++ attr ++ ")")
        else do
          let vs ← parseVar L fuel value
          .ok ("%attribute(" ++ vs ++ ", " ++ attr ++ ")")
      | _ => do
        let vs ← parseVar L fuel value
        .ok ("%attribute(" ++ vs ++ ", " ++ attr ++ ")")
    | .Subscript value slice => do
      let vs ← parseVar L fuel value
      let ss ← parseExpr L fuel slice
      .ok ("%subscript(" ++ vs ++ ", " ++ ss ++ ")")
    | _ => .error "Unsupported Var format"

/-- Embedding of `parseCallExpr`: keyword arguments raise, `as_wei_value` gets
its second argument as a bare identifier or string, and every other bare-name
call renders generically. -/
def parseCallExpr (L : List (List Char)) : ℕ → Node → Except String String
  | 0, _ => .error fuelErr
  | fuel + 1, expr =>
    match expr with
    | .Call func args keywords =>
      if keywords.length ≠ 0 then
        .error "Calls with named parameters not yet supported"
      else
        match func with
        | .Name fid =>
          if fid = "as_wei_value" then
            match args with
            | a0 :: a1 :: _ => do
              let s ← parseExpr L fuel a0
              let u ← (match a1 with
                       | .Str s1 => Except.ok s1
                       | .Name nid => Except.ok nid
                       | _ => Except.error "AttributeError: id")
              .ok ("%as_wei_value(" ++ s ++ ", " ++ u ++ ")")
            | _ => .error "IndexError: args"
          else do
            let es ← parseExprList L fuel ", " args "" true
            .ok ("%" ++ fid ++ "(" ++ es ++ ")")
        | _ => .error "AttributeError: func.id"
    | _ => .error "AttributeError: not a Call"

/-- Embedding of `parseList` specialised to expressions (`parseExprs`), with
the accumulator of the source loop made explicit. -/
def parseExprList (L : List (List Char)) : ℕ → String → List Node → String → Bool → Except String String
  | 0, _, _, _, _ => .error fuelErr
  | fuel + 1, separator, exprs, rez, first =>
    match exprs with
    | [] => .ok rez
    | x :: xs => do
      let s ← parseExpr L fuel x
      parseExprList L fuel separator xs (rez ++ (if first then "" else separator) ++ s) false

end

/-- Embedding of `parseExprs` (default separator is a space at call sites that
omit it). -/
def parseExprs (L : List (List Char)) (fuel : ℕ) (separator : String) (exprs : List Node) :
    Except String String :=
  parseExprList L fuel separator exprs "" true

mutual

/-- Embedding of `parseStmt`.  The second result component is the value of the
global `stmtsIndent` when the call returns; `parseStmt` itself only threads it
through the nested `parseStmts` calls. -/
def parseStmt (L : List (List Char)) : ℕ → Stmt → String → Except String (String × String)
  | 0, _, _ => .error fuelErr
  | fuel + 1, node, s =>
    match node with
    | .AnnAssign target ann => do
      let d ← parseVarDecl2 L fuel target ann
      .ok (d, s)
    | .Assign targets value =>
      match targets with
      | t0 :: _ => do
        let vs ← parseVar L fuel t0
        let es ← parseExpr L fuel value
        .ok ("%assign(" ++ vs ++ ", " ++ es ++ ")", s)
      | [] => .error "IndexError: targets"
    | .AugAssign target op value => do
      let vs ← parseVar L fuel target
      let es ← parseExpr L fuel value
      .ok ("%augassign(" ++ parseAugAssignOp op ++ ", " ++ vs ++ ", " ++ es ++ ")", s)
    | .If test body orelse =>
      if orelse.length = 0 then do
        let ts ← parseExpr L fuel test
        let (bs, s1) ← parseStmts L fuel body s
        .ok ("%if(" ++ ts ++ "," ++ bs ++ ")", s1)
      else do
        let ts ← parseExpr L fuel test
        let (bs, s1) ← parseStmts L fuel body s
        let (os, s2) ← parseStmts L fuel orelse s1
        .ok ("%if(" ++ ts ++ "," ++ bs ++ "," ++ os ++ ")", s2)
    | .For target iter body =>
      match iter with
      | .Call (.Name "range") rargs _ =>
        if rargs.length = 1 then
          match target with
          | .Name tid =>
            match rargs with
            | r0 :: _ => do
              let e0 ← parseExpr L fuel r0
              let (bs, s1) ← parseStmts L fuel body s
              .ok ("%forrange(" ++ tid ++ ", " ++ e0 ++ "," ++ bs ++ ")", s1)
            | [] => .error "IndexError: iter.args"
          | _ => .error "AttributeError: target.id"
        else
          match target with
          | .Name tid =>
            match rargs with
            | r0 :: r1 :: _ => do
              let e0 ← parseExpr L fuel r0
              let e1 ← parseExpr L fuel r1
              let (bs, s1) ← parseStmts L fuel body s
              .ok ("%forrange(" ++ tid ++ ", " ++ e0 ++ ", " ++ e1 ++ "," ++ bs ++ ")", s1)
            | _ => .error "IndexError: iter.args"
          | _ => .error "AttributeError: target.id"
      | _ =>
        match target with
        | .Name tid => do
          let is ← parseExpr L fuel iter
          let (bs, s1) ← parseStmts L fuel body s
          .ok ("%forlist(" ++ tid ++ ", " ++ is ++ "," ++ bs ++ ")", s1)
        | _ => .error "AttributeError: target.id"
    | .Break => .ok ("%break", s)
    | .Pass => .ok ("%pass", s)
    | .Return value =>
      match value with
      | none => .ok ("%return", s)
      | some v => do
        let es ← parseExpr L fuel v
        .ok ("%return(" ++ es ++ ")", s)
    | .Assert test => do
      let es ← parseExpr L fuel test
      .ok ("%assert(" ++ es ++ ")", s)
    | .Expr value =>
      match value with
      | .Name id =>
        if id = "throw" then .ok ("%throw", s) else .error "Unsupported Stmt format"
      | .Call func args _ =>
        match func with
        | .Attribute fval fattr =>
          match fval with
          | .Name fvid =>
            if fvid = "log" then do
              let es ← parseExprs L fuel " " args
              .ok ("%log(" ++ fattr ++ ", " ++ es ++ ")", s)
            else .error "Unsupported Expr Stmt format"
          | _ => .error "AttributeError: func.value.id"
        | .Name fid =>
          if fid = "send" then do
            let es ← parseExprs L fuel ", " args
            .ok ("%send(" ++ es ++ ")", s)
          else if fid = "selfdestruct" then do
            let es ← parseExprs L fuel ", " args
            .ok ("%selfdestruct(" ++ es ++ ")", s)
          else .error "Unsupported Expr Stmt format"
        | _ => .error "Unsupported Expr Stmt format"
      | _ => .error "Unsupported Stmt format"
    | _ => .error "Unsupported Stmt format"

/-- Embedding of `parseStmts`: save the global indent, extend it by two
spaces, render the block with every statement prefixed by newline plus the
extended indent (`initSeparator = separator`), then restore the saved
indent. -/
def parseStmts (L : List (List Char)) : ℕ → List Stmt → String → Except String (String × String)
  | 0, _, _ => .error fuelErr
  | fuel + 1, body, s =>
    match parseStmtList L fuel ("\n" ++ (s ++ "  ")) body "" (s ++ "  ") with
    | .error e => .error e
    | .ok (rez, _) => .ok (rez, s)

/-- Embedding of the `parseList` loop specialised to statements: each element
is prefixed by the separator (which here equals the initial separator) and the
global indent is threaded through the element calls. -/
def parseStmtList (L : List (List Char)) :
    ℕ → String → List Stmt → String → String → Except String (String × String)
  | 0, _, _, _, _ => .error fuelErr
  | fuel + 1, separator, body, rez, s =>
    match body with
    | [] => .ok (rez, s)
    | x :: xs => do
      let (r1, s1) ← parseStmt L fuel x s
      parseStmtList L fuel separator xs (rez ++ separator ++ r1) s1

end

/-- Embedding of `parseDef`: decorators, name, params, return type and body,
in the evaluation order of the format call. -/
def parseDef (L : List (List Char)) (fuel : ℕ) : Stmt → String → Except String (String × String)
  | .FunctionDef name args decorator_list returns body, s => do
    let ds ← parseDecorators decorator_list
    let ps ← parseParams L fuel args
    let rt ← parseType L fuel returns
    let (bs, s1) ← parseStmts L fuel body s
    .ok ("  %fdecl(" ++ ds ++ ", " ++ name ++ ", " ++ ps ++ ", " ++ rt ++ "," ++ bs ++ ")", s1)
  | _, _ => .error "AttributeError: not a FunctionDef"

/-- Embedding of the `parseList` helper for the stateful `parseDef` element
translator. -/
def parseDefList (L : List (List Char)) (fuel : ℕ) (separator initSeparator emptyCase : String)
    (nodeList : List Stmt) (s : String) : Except String (String × String) := do
  let (rez, s1) ← go nodeList "" true s
  .ok ((if rez = "" then emptyCase else rez), s1)
where
  go : List Stmt → String → Bool → String → Except String (String × String)
    | [], rez, _, s => .ok (rez, s)
    | x :: xs, rez, first, s => do
      let (r1, s1) ← parseDef L fuel x s
      go xs (rez ++ (if first then initSeparator else separator) ++ r1) false s1

/-- Classification loop of `parseProgram`: one left-to-right scan that fills
the four buckets and aborts at the first top-level node of an unsupported
shape. -/
def classify : List Stmt → Except String (List Stmt × List Stmt × List Stmt × List Stmt)
  | [] => .ok ([], [], [], [])
  | node :: rest =>
    match node with
    | .AnnAssign _ (.Call func _ _) =>
      match func with
      | .Name fid =>
        if fid = "__log__" then do
          let (e, g, i, d) ← classify rest
          .ok (node :: e, g, i, d)
        else do
          let (e, g, i, d) ← classify rest
          .ok (e, node :: g, i, d)
      | _ => .error "AttributeError: annotation.func.id"
    | .AnnAssign _ _ => do
      let (e, g, i, d) ← classify rest
      .ok (e, node :: g, i, d)
    | .FunctionDef name _ _ _ _ =>
      if name = "__init__" then do
        let (e, g, i, d) ← classify rest
        .ok (e, g, node :: i, d)
      else do
        let (e, g, i, d) ← classify rest
        .ok (e, g, i, node :: d)
    | _ => .error "Unsupported top level node"

/-- Rendering part of `parseProgram`: the four buckets are rendered and
concatenated in the fixed order events, globals, init, defs (the `init is not
None` test of the source is always true, since `init` is a list).  The global
indent starts at the module-level value `"  "` and is threaded left to
right. -/
def renderProgram (L : List (List Char)) (fuel : ℕ)
    (events globals initDefs defs : List Stmt) : Except String String := do
  let ev ← parseListE (parseEvent L fuel) "\n" "\n" "" events
  let gl ← parseListE (parseGlobal L fuel) "\n" "\n" " " globals
  let (ini, s1) ← parseDefList L fuel "\n" "\n" " " initDefs "  "
  let (dfs, _) ← parseDefList L fuel "\n" "\n" " " defs s1
  .ok ("%pgm(" ++ ev ++ "," ++ gl ++ "," ++ ini ++ "," ++ dfs ++ "\n)")

/-- Embedding of `parseProgram`: classify the top-level nodes, then render. -/
def parseProgram (L : List (List Char)) (fuel : ℕ) (nodeList : List Stmt) :
    Except String String := do
  let (events, globals, initDefs, defs) ← classify nodeList
  renderProgram L fuel events globals initDefs defs

end scripts

namespace parser

/-- Error raised when the structural fuel of the embedding runs out (see
`scripts.fuelErr`). -/
def fuelErr : String := "RecursionFuelExhausted"

/-- Constant taken from the viper compiler. -/
def DECIMAL_DIVISOR : ℕ := 10000000000

/-- The `while` loop of the `parser/` variant of `parseFixed10Const`, which
works on `Decimal(node.n)`: the multiplication by ten is rounded by the
default decimal context to 28 significant digits. -/
def fixed10Loop : ℕ → Frac → ℕ → Frac × ℕ
  | 0, num, divisor => (num, divisor)
  | fuel + 1, num, divisor =>
    if num.isIntB = false ∧ divisor < DECIMAL_DIVISOR then
      fixed10Loop fuel (roundDec28 (num.mulI 10)) (divisor * 10)
    else (num, divisor)

/-- Embedding of `parser/viper_parser.py` `parseFixed10Const`: `Decimal(node.n)`
converts the float exactly, the loop multiplies under the decimal context, and
`'{0:.0f}'` formatting rounds half-to-even to an integer. -/
def parseFixed10Const (n : Frac) : String :=
  let r := fixed10Loop 11 n 1
  "%fixed10(" ++ toString (roundHalfEvenF r.1) ++ ", " ++ toString r.2 ++ ")"

/-- Embedding of the `parser/` variant of `parseConst`: ints with hex
recovery, floats through the decimal fixed-point rendering, and the
identifiers `true`/`false`; there is no string or `NameConstant` case. -/
def parseConst (inputLines : List (List Char)) : Node → Except String String
  | .Num (.Int n) lineno col_offset =>
    match get_original_if_0x_prefixed inputLines lineno col_offset with
    | none => .ok (toString n)
    | some hexFormat => .ok ("%hex(\"" ++ String.mk (hexFormat.drop 2) ++ "\")")
  | .Num (.Float v) _ _ => .ok (parseFixed10Const v)
  | .Name id =>
    if id = "true" ∨ id = "false" then .ok id
    else .error "Unsupported Const format"
  | _ => .error "Unsupported Const format"

/-- Embedding of the `parser/` variant of `parseReservedExpr`: renders
`%<name>.<attr>` for any attribute access, with no whitelist check. -/
def parseReservedExpr : Node → Except String String
  | .Attribute (.Name vid) attr => .ok ("%" ++ vid ++ "." ++ attr)
  | .Attribute _ _ => .error "AttributeError: value.id"
  | _ => .error "AttributeError: not an Attribute"

/-- Embedding of the `parser/` variant of `parseBinOp` (an if/elif chain over
every `ast.operator`; the raising branch is dead). -/
def parseBinOp : Operator → String
  | .Add => "+"
  | .BitAnd => "&"
  | .BitOr => "|"
  | .BitXor => "^"
  | .Div => "/"
  | .FloorDiv => "//"
  | .LShift => "<<"
  | .MatMult => "@"
  | .Mod => "%"
  | .Mult => "*"
  | .Pow => "**"
  | .RShift => ">>"
  | .Sub => "-"

/-- Embedding of the `parser/` variant of `parseAugAssignOp`. -/
def parseAugAssignOp (op : Operator) : String := parseBinOp op ++ "="

mutual

/-- Embedding of the `parser/` variant of `parseExpr`: note that a non-`self`
attribute access falls through to `parseReservedExpr`, and that an attribute
whose base is not a name crashes in the dispatch condition itself. -/
def parseExpr (L : List (List Char)) : ℕ → Node → Except String String
  | 0, _ => .error fuelErr
  | fuel + 1, node =>
    match node with
    | .Num _ _ _ => parseConst L node
    | .Name id =>
      if id = "true" ∨ id = "false" then parseConst L node
      else if id = "self" then .ok "%self"
      else parseVar L fuel node
    | .BinOp left op right => do
      let ls ← parseExpr L fuel left
      let rs ← parseExpr L fuel right
      .ok ("%binop(" ++ parseBinOp op ++ ", " ++ ls ++ ", " ++ rs ++ ")")
    | .Index _ => parseVar L fuel node
    | .Subscript _ _ => parseVar L fuel node
    | .Attribute value _ =>
      match value with
      | .Name vid => if vid = "self" then parseVar L fuel node else parseReservedExpr node
      | _ => .error "AttributeError: value.id"
    | .List elts => do
      let es ← parseExprList L fuel " " elts "" true
      .ok ("%list(" ++ es ++ ")")
    | .Call _ _ _ => parseCallExpr L fuel node
    | _ => .error "Unsupported Expr format"

/-- Embedding of the `parser/` variant of `parseVar`: no non-`self` attribute
chains (`self.x` only) and `%mapelem` for subscripts. -/
def parseVar (L : List (List Char)) : ℕ → Node → Except String String
  | 0, _ => .error fuelErr
  | fuel + 1, var =>
    match var with
    | .Name id => .ok ("%var(" ++ id ++ ")")
    | .Index value => parseVar L fuel value
    | .Attribute value attr =>
      match value with
      | .Name vid =>
        if vid = "self" then .ok ("%svar(" ++ attr ++ ")")
        else .error "Unsupported Var format"
      | _ => .error "AttributeError: value.id"
    | .Subscript value slice => do
      let vs ← parseVar L fuel value
      let ss ← parseExpr L fuel slice
      .ok ("%mapelem(" ++ vs ++ ", " ++ ss ++ ")")
    | _ => .error "Unsupported Var format"

/-- Embedding of the `parser/` variant of `parseCallExpr`: no keyword-argument
check at all; `as_wei_value` takes its second argument's identifier. -/
def parseCallExpr (L : List (List Char)) : ℕ → Node → Except String String
  | 0, _ => .error fuelErr
  | fuel + 1, expr =>
    match expr with
    | .Call func args _ =>
      match func with
      | .Name fid =>
        if fid = "as_wei_value" then
          match args with
          | a0 :: a1 :: _ => do
            let s ← parseExpr L fuel a0
            let u ← (match a1 with
                     | .Name nid => Except.ok nid
                     | _ => Except.error "AttributeError: id")
            .ok ("%as_wei_value(" ++ s ++ ", " ++ u ++ ")")
          | _ => .error "IndexError: args"
        else do
          let es ← parseExprList L fuel ", " args "" true
          .ok ("%" ++ fid ++ "(" ++ es ++ ")")
      | _ => .error "AttributeError: func.id"
    | _ => .error "AttributeError: not a Call"

/-- Embedding of `parseList` specialised to expressions in the `parser/`
variant. -/
def parseExprList (L : List (List Char)) : ℕ → String → List Node → String → Bool → Except String String
  | 0, _, _, _, _ => .error fuelErr
  | fuel + 1, separator, exprs, rez, first =>
    match exprs with
    | [] => .ok rez
    | x :: xs => do
      let s ← parseExpr L fuel x
      parseExprList L fuel separator xs (rez ++ (if first then "" else separator) ++ s) false

end

/-- Embedding of the `parser/` variant of `parseExprs`. -/
def parseExprs (L : List (List Char)) (fuel : ℕ) (separator : String) (exprs : List Node) :
    Except String String :=
  parseExprList L fuel separator exprs "" true

/-- Embedding of the `parser/` variant of `parseBaseType`. -/
def parseBaseType : Node → Except String String
  | .Name id => .ok ("%" ++ id)
  | _ => .error "BaseType parsing not yet implemented"

/-- Embedding of the `parser/` variant of `parseType`: only `None`, names and
subscripts are accepted. -/
def parseType (L : List (List Char)) : ℕ → Option Node → Except String String
  | 0, _ => .error fuelErr
  | fuel + 1, param =>
    match param with
    | none => .ok "%void"
    | some n =>
      match n with
      | .Name _ => parseBaseType n
      | .Subscript value slice =>
        match slice with
        | .Index iv =>
          match iv with
          | .Num _ _ _ => do
            let t ← parseType L fuel (some value)
            let c ← parseConst L iv
            .ok ("%listT(" ++ t ++ ", " ++ c ++ ")")
          | _ => do
            let t ← parseType L fuel (some value)
            let k ← parseType L fuel (some iv)
            .ok ("%mapT(" ++ t ++ ", " ++ k ++ ")")
        | _ => .error "AttributeError: slice.value"
      | _ => .error "Type parsing not yet implemented"

/-- Embedding of the `parser/` variant of `parseGlobal`: the visibility is
always `%private`. -/
def parseGlobal (L : List (List Char)) (fuel : ℕ) : Stmt → Except String String
  | .AnnAssign target ann =>
    match target with
    | .Name tid => do
      let t ← parseType L fuel (some ann)
      .ok ("  %svdecl(" ++ tid ++ ", " ++ t ++ ", %private)")
    | _ => .error "AttributeError: target.id"
  | _ => .error "AttributeError: target"

mutual

/-- Embedding of the `parser/` variant of `parseStmt`.  Unrecognised statement
shapes return the empty string (the commented-out raise of the source): the
translation silently drops them. -/
def parseStmt (L : List (List Char)) : ℕ → Stmt → String → Except String (String × String)
  | 0, _, _ => .error fuelErr
  | fuel + 1, stmt, s =>
    match stmt with
    | .Assign targets value =>
      match targets with
      | t0 :: _ => do
        let vs ← parseVar L fuel t0
        let es ← parseExpr L fuel value
        .ok ("%assign(" ++ vs ++ ", " ++ es ++ ")", s)
      | [] => .error "IndexError: targets"
    | .AugAssign target op value => do
      let vs ← parseVar L fuel target
      let es ← parseExpr L fuel value
      .ok ("%augassign(" ++ parseAugAssignOp op ++ ", " ++ vs ++ ", " ++ es ++ ")", s)
    | .Expr value =>
      match value with
      | .Call func args _ =>
        match func with
        | .Attribute fval fattr =>
          match fval with
          | .Name fvid =>
            if fvid = "log" then do
              let es ← parseExprs L fuel " " args
              .ok ("%log(" ++ fattr ++ ", " ++ es ++ ")", s)
            else .ok ("", s)
          | _ => .error "AttributeError: func.value.id"
        | .Name fid =>
          if fid = "send" then do
            let es ← parseExprs L fuel ", " args
            .ok ("%send(" ++ es ++ ")", s)
          else .ok ("", s)
        | _ => .ok ("", s)
      | _ => .ok ("", s)
    | .If test body orelse => do
      -- the source tests `stmt.orelse is None`, which is never true for a
      -- parsed tree (an absent else is the empty list), so the three-argument
      -- rendering is always taken
      let ts ← parseExpr L fuel test
      let (bs, s1) ← parseStmts L fuel body s
      let (os, s2) ← parseStmts L fuel orelse s1
      .ok ("%if(" ++ ts ++ "," ++ bs ++ "," ++ os ++ ")", s2)
    | .For target iter body =>
      match iter with
      | .Call ifunc rargs _ =>
        match ifunc with
        | .Name ifid =>
          if ifid = "range" then
            if rargs.length = 1 then
              match target with
              | .Name tid =>
                match rargs with
                | r0 :: _ => do
                  let e0 ← parseExpr L fuel r0
                  let (bs, s1) ← parseStmts L fuel body s
                  .ok ("%forrange(" ++ tid ++ ", " ++ e0 ++ "," ++ bs ++ ")", s1)
                | [] => .error "IndexError: iter.args"
              | _ => .error "AttributeError: target.id"
            else
              match target with
              | .Name tid =>
                match rargs with
                | r0 :: r1 :: _ => do
                  let e0 ← parseExpr L fuel r0
                  let e1 ← parseExpr L fuel r1
                  let (bs, s1) ← parseStmts L fuel body s
                  .ok ("%forrange(" ++ tid ++ ", " ++ e0 ++ ", " ++ e1 ++ "," ++ bs ++ ")", s1)
                | _ => .error "IndexError: iter.args"
              | _ => .error "AttributeError: target.id"
          else .ok ("", s)
        | _ => .error "AttributeError: func.id"
      | _ => .error "AttributeError: iter.func"
    | .Pass => .ok ("%pass", s)
    | .Return value =>
      match value with
      | none => .ok ("%return", s)
      | some v => do
        let es ← parseExpr L fuel v
        .ok ("%return(" ++ es ++ ")", s)
    | _ => .ok ("", s)

/-- Embedding of the `parser/` variant of `parseStmts` (identical indent
bookkeeping to the `scripts/` variant). -/
def parseStmts (L : List (List Char)) : ℕ → List Stmt → String → Except String (String × String)
  | 0, _, _ => .error fuelErr
  | fuel + 1, body, s =>
    match parseStmtList L fuel ("\n" ++ (s ++ "  ")) body "" (s ++ "  ") with
    | .error e => .error e
    | .ok (rez, _) => .ok (rez, s)

/-- Embedding of the `parseList` loop specialised to statements in the
`parser/` variant. -/
def parseStmtList (L : List (List Char)) :
    ℕ → String → List Stmt → String → String → Except String (String × String)
  | 0, _, _, _, _ => .error fuelErr
  | fuel + 1, separator, body, rez, s =>
    match body with
    | [] => .ok (rez, s)
    | x :: xs => do
      let (r1, s1) ← parseStmt L fuel x s
      parseStmtList L fuel separator xs (rez ++ separator ++ r1) s1

end

end parser

namespace scripts

mutual

/-- Indent-threaded mirror of `parseStmt`: the first string argument is the
value the global indent has while this statement is translated; nested blocks
are rendered by `parseStmtsI` at that indent extended by two spaces. -/
def parseStmtI (L : List (List Char)) : ℕ → Stmt → String → Except String String
  | 0, _, _ => .error fuelErr
  | fuel + 1, node, cur =>
    match node with
    | .AnnAssign target ann => parseVarDecl2 L fuel target ann
    | .Assign targets value =>
      match targets with
      | t0 :: _ => do
        let vs ← parseVar L fuel t0
        let es ← parseExpr L fuel value
        .ok ("%assign(" ++ vs ++ ", " ++ es ++ ")")
      | [] => .error "IndexError: targets"
    | .AugAssign target op value => do
      let vs ← parseVar L fuel target
      let es ← parseExpr L fuel value
      .ok ("%augassign(" ++ parseAugAssignOp op ++ ", " ++ vs ++ ", " ++ es ++ ")")
    | .If test body orelse =>
      if orelse.length = 0 then do
        let ts ← parseExpr L fuel test
        let bs ← parseStmtsI L fuel body (cur ++ "  ")
        .ok ("%if(" ++ ts ++ "," ++ bs ++ ")")
      else do
        let ts ← parseExpr L fuel test
        let bs ← parseStmtsI L fuel body (cur ++ "  ")
        let os ← parseStmtsI L fuel orelse (cur ++ "  ")
        .ok ("%if(" ++ ts ++ "," ++ bs ++ "," ++ os ++ ")")
    | .For target iter body =>
      match iter with
      | .Call (.Name "range") rargs _ =>
        if rargs.length = 1 then
          match target with
          | .Name tid =>
            match rargs with
            | r0 :: _ => do
              let e0 ← parseExpr L fuel r0
              let bs ← parseStmtsI L fuel body (cur ++ "  ")
              .ok ("%forrange(" ++ tid ++ ", " ++ e0 ++ "," ++ bs ++ ")")
            | [] => .error "IndexError: iter.args"
          | _ => .error "AttributeError: target.id"
        else
          match target with
          | .Name tid =>
            match rargs with
            | r0 :: r1 :: _ => do
              let e0 ← parseExpr L fuel r0
              let e1 ← parseExpr L fuel r1
              let bs ← parseStmtsI L fuel body (cur ++ "  ")
              .ok ("%forrange(" ++ tid ++ ", " ++ e0 ++ ", " ++ e1 ++ "," ++ bs ++ ")")
            | _ => .error "IndexError: iter.args"
          | _ => .error "AttributeError: target.id"
      | _ =>
        match target with
        | .Name tid => do
          let is ← parseExpr L fuel iter
          let bs ← parseStmtsI L fuel body (cur ++ "  ")
          .ok ("%forlist(" ++ tid ++ ", " ++ is ++ "," ++ bs ++ ")")
        | _ => .error "AttributeError: target.id"
    | .Break => .ok "%break"
    | .Pass => .ok "%pass"
    | .Return value =>
      match value with
      | none => .ok "%return"
      | some v => do
        let es ← parseExpr L fuel v
        .ok ("%return(" ++ es ++ ")")
    | .Assert test => do
      let es ← parseExpr L fuel test
      .ok ("%assert(" ++ es ++ ")")
    | .Expr value =>
      match value with
      | .Name id =>
        if id = "throw" then .ok "%throw" else .error "Unsupported Stmt format"
      | .Call func args _ =>
        match func with
        | .Attribute fval fattr =>
          match fval with
          | .Name fvid =>
            if fvid = "log" then do
              let es ← parseExprs L fuel " " args
              .ok ("%log(" ++ fattr ++ ", " ++ es ++ ")")
            else .error "Unsupported Expr Stmt format"
          | _ => .error "AttributeError: func.value.id"
        | .Name fid =>
          if fid = "send" then do
            let es ← parseExprs L fuel ", " args
            .ok ("%send(" ++ es ++ ")")
          else if fid = "selfdestruct" then do
            let es ← parseExprs L fuel ", " args
            .ok ("%selfdestruct(" ++ es ++ ")")
          else .error "Unsupported Expr Stmt format"
        | _ => .error "Unsupported Expr Stmt format"
      | _ => .error "Unsupported Stmt format"
    | _ => .error "Unsupported Stmt format"

/-- Indent-threaded mirror of `parseStmts`: `ind` is the indent of the
statements of this block (the enclosing indent plus two spaces). -/
def parseStmtsI (L : List (List Char)) : ℕ → List Stmt → String → Except String String
  | 0, _, _ => .error fuelErr
  | fuel + 1, body, ind => parseStmtListI L fuel ("\n" ++ ind) body "" ind

/-- Indent-threaded mirror of the statement `parseList` loop. -/
def parseStmtListI (L : List (List Char)) :
    ℕ → String → List Stmt → String → String → Except String String
  | 0, _, _, _, _ => .error fuelErr
  | fuel + 1, separator, body, rez, ind =>
    match body with
    | [] => .ok rez
    | x :: xs => do
      let r1 ← parseStmtI L fuel x ind
      parseStmtListI L fuel separator xs (rez ++ separator ++ r1) ind

end

end scripts

/-- Statement shapes that the specification lists as mapped: annotated
declaration, assignment, augmented assignment, if, for, break, pass, return,
assert, throw, log-call, send-call and selfdestruct-call. -/
def mappedStmtShape : Stmt → Bool
  | .AnnAssign _ _ => true
  | .Assign _ _ => true
  | .AugAssign _ _ _ => true
  | .If _ _ _ => true
  | .For _ _ _ => true
  | .Break => true
  | .Pass => true
  | .Return _ => true
  | .Assert _ => true
  | .Expr v =>
    match v with
    | .Name id => id == "throw"
    | .Call f _ _ =>
      match f with
      | .Attribute (.Name fvid) _ => fvid == "log"
      | .Name fid => fid == "send" || fid == "selfdestruct"
      | _ => false
    | _ => false
  | _ => false

/-- The reserved-property whitelist of the specification. -/
def reservedPair (vid attr : String) : Prop :=
  (vid = "msg" ∧ (attr = "sender" ∨ attr = "value" ∨ attr = "gas")) ∨
  (vid = "block" ∧ (attr = "difficulty" ∨ attr = "timestamp" ∨ attr = "coinbase" ∨
                    attr = "number" ∨ attr = "prevhash")) ∨
  (vid = "tx" ∧ attr = "origin")

instance (vid attr : String) : Decidable (reservedPair vid attr) := by
  unfold reservedPair; infer_instance

/-- Type-annotation shapes accepted by `scripts.parseType`: name, subscript,
dict literal, call, and the comparison whose left operand is the name
`bytes`. -/
def acceptedTypeShape : Node → Bool
  | .Name _ => true
  | .Subscript _ _ => true
  | .Dict _ _ => true
  | .Call _ _ _ => true
  | .Compare (.Name lid) _ _ => lid == "bytes"
  | _ => false

/-- Top-level event shape: an annotated declaration whose annotation is a call
of the name `__log__`. -/
def isEventN : Stmt → Bool
  | .AnnAssign _ (.Call (.Name fid) _ _) => fid == "__log__"
  | _ => false

/-- Top-level global shape: any other annotated declaration (with a
classifiable annotation). -/
def isGlobalN : Stmt → Bool
  | .AnnAssign _ (.Call (.Name fid) _ _) => fid != "__log__"
  | .AnnAssign _ (.Call _ _ _) => false
  | .AnnAssign _ _ => true
  | _ => false

/-- Top-level constructor shape: a function declaration named `__init__`. -/
def isInitN : Stmt → Bool
  | .FunctionDef name _ _ _ _ => name == "__init__"
  | _ => false

/-- Top-level ordinary-function shape. -/
def isDefN : Stmt → Bool
  | .FunctionDef name _ _ _ _ => name != "__init__"
  | _ => false

/-- Top-level shapes that the program assembler classifies without failing. -/
def topShapeOK (n : Stmt) : Bool := isEventN n || isGlobalN n || isInitN n || isDefN n

/-- Whether an annotation node is a call (the visibility-wrapper test of
`parseGlobal`). -/
def isCallAnn : Node → Bool
  | .Call _ _ _ => true
  | _ => false

/-- The iteration of the `parseFixed10Const` float loop: `floatIter v i` is the
float value after `i` rounding multiplications by ten starting from the
literal's float value `v`. -/
def floatIter (v : Frac) : ℕ → Frac
  | 0 => v
  | i + 1 => roundDouble ((floatIter v i).mulI 10)

theorem except_map_ok (g : β → γ) (a : β) : (Except.ok a : Except String β).map g = .ok (g a) := rfl

theorem except_map_error (g : β → γ) (e : String) :
    (Except.error e : Except String β).map g = .error e := rfl

theorem except_bind_ok (x : Except String α) (f : α → β) :
    (x.bind fun a => Except.ok (f a)) = x.map f := by cases x <;> rfl

theorem except_pure_bind (a : α) (f : α → Except String β) :
    (do
      let x ← (Except.ok a : Except String α)
      f x) = f a := rfl

theorem except_error_bind (e : String) (f : α → Except String β) :
    (do
      let x ← (Except.error e : Except String α)
      f x) = Except.error e := rfl

theorem except_do_map (x : Except String α) (f : α → β) :
    (do
      let a ← x
      Except.ok (f a) : Except String β) = x.map f := by cases x <;> rfl

theorem except_map_bind (x : Except String α) (f : α → Except String β) (g : β → γ) :
    (x.bind f).map g = x.bind fun a => (f a).map g := by cases x <;> rfl

theorem except_bind_map (x : Except String α) (f : α → β) (g : β → Except String γ) :
    (x.map f).bind g = x.bind fun a => g (f a) := by cases x <;> rfl

/-- C9: for every boolean expression with three or more operands, expression
translation does not fail: it renders a two-operand `%boolop` from the first
two operands only, ignoring every operand after the second (the result equals
the translation of the two-operand truncation; concretely, `a and b and c`
renders as `%boolop(%and, %var(a), %var(b))`). -/
theorem c9_boolop_discards_extra_operands :
    (∀ (L : List (List Char)) (fuel : ℕ) (op : Boolop) (v0 v1 : Node) (rest : List Node),
      scripts.parseExpr L fuel (.BoolOp op (v0 :: v1 :: rest)) =
        scripts.parseExpr L fuel (.BoolOp op [v0, v1])) ∧
    scripts.parseExpr [] 3 (.BoolOp .And [.Name "a", .Name "b", .Name "c"]) =
      .ok "%boolop(%and, %var(a), %var(b))" := by
  refine ⟨?_, by decide⟩
  intro L fuel op v0 v1 rest
  cases fuel with
  | zero => rfl
  | succ f => rfl

/-- C10: keyword call arguments are rejected asymmetrically: a call with a
bare-name callee and any keyword argument raises the named-parameter
`ParserException`, while an internal call `self.m(...)` ignores its keyword
list entirely (its translation equals the translation with no keywords) and
succeeds on the positional arguments alone. -/
theorem c10_keyword_args_asymmetry :
    (∀ (L : List (List Char)) (fuel : ℕ) (fid : String) (args : List Node)
        (kws : List (String × Node)), kws ≠ [] →
      scripts.parseExpr L (fuel + 2) (.Call (.Name fid) args kws) =
        .error "Calls with named parameters not yet supported") ∧
    (∀ (L : List (List Char)) (fuel : ℕ) (m : String) (args : List Node)
        (kws : List (String × Node)),
      scripts.parseExpr L fuel (.Call (.Attribute (.Name "self") m) args kws) =
        scripts.parseExpr L fuel (.Call (.Attribute (.Name "self") m) args [])) ∧
    scripts.parseExpr [] 9 (.Call (.Attribute (.Name "self") "foo") [.Name "x", .Name "y"]
        [("k", .Num (.Int 1) 1 1)]) = .ok "%icall(foo, %var(x) %var(y))" := by
  refine ⟨?_, ?_, by decide⟩
  · intro L fuel fid args kws hk
    have hlen : kws.length ≠ 0 := by
      cases kws with
      | nil => exact absurd rfl hk
      | cons a l => simp
    simp [scripts.parseExpr, scripts.parseCallExpr, hlen]
  · intro L fuel m args kws
    cases fuel with
    | zero => rfl
    | succ f => rfl

/-- C8: a top-level type-annotated global declaration whose annotation is not
a visibility-wrapper call renders with visibility `%private` (its translation
is exactly the translated type wrapped in `  %svdecl(name, type, %private)`);
in particular `x: num` renders as `  %svdecl(x, %num, %private)`.  The
`parser/` variant renders `%private` unconditionally. -/
theorem c8_global_default_private :
    (∀ (L : List (List Char)) (fuel : ℕ) (tid : String) (ann : Node), isCallAnn ann = false →
      scripts.parseGlobal L fuel (.AnnAssign (.Name tid) ann) =
        (scripts.parseType L fuel (some ann)).map
          (fun t => "  %svdecl(" ++ tid ++ ", " ++ t ++ ", %private)")) ∧
    scripts.parseGlobal [] 2 (.AnnAssign (.Name "x") (.Name "num")) =
      .ok "  %svdecl(x, %num, %private)" ∧
    (∀ (L : List (List Char)) (fuel : ℕ) (tid : String) (ann : Node),
      parser.parseGlobal L fuel (.AnnAssign (.Name tid) ann) =
        (parser.parseType L fuel (some ann)).map
          (fun t => "  %svdecl(" ++ tid ++ ", " ++ t ++ ", %private)")) := by
  refine ⟨?_, by decide, ?_⟩
  · intro L fuel tid ann hann
    cases ann <;> simp_all [scripts.parseGlobal, isCallAnn, except_do_map]
  · intro L fuel tid ann
    cases ann <;> simp [parser.parseGlobal, except_do_map]

/-- C8 witness: the general statement applied to the concrete declaration
`x: num`, whose annotation is not a call. -/
theorem c8_witness :
    scripts.parseGlobal [] 2 (.AnnAssign (.Name "x") (.Name "num")) =
      (scripts.parseType [] 2 (some (.Name "num"))).map
        (fun t => "  %svdecl(" ++ "x" ++ ", " ++ t ++ ", %private)") :=
  c8_global_default_private.1 [] 2 "x" (.Name "num") (by decide)

/-- C5 counterexample: the comparison node `bytes <= 100` is a type-annotation
shape outside {name, subscript, dict-literal, call}, yet `parseType` accepts
it and renders `%bytesT(100)` instead of raising. -/
theorem c5_counterexample :
    scripts.parseType [] 1 (some (.Compare (.Name "bytes") [.LtE] [.Num (.Int 100) 1 1])) =
      .ok "%bytesT(100)" := by decide

/-- C5 amended: the type translator accepts exactly the five shapes name,
subscript, dict-literal, call, and comparison with left operand the name
`bytes` (rendered as a byte-array type); a node of any other shape raises a
fatal `ParserException` (or an attribute error on a malformed comparison), and
translation of the annotation does not continue. -/
theorem c5_type_shapes (L : List (List Char)) (fuel : ℕ) (n : Node)
    (h : acceptedTypeShape n = false) :
    ∃ e, scripts.parseType L fuel (some n) = .error e := by
  cases fuel with
  | zero => exact ⟨scripts.fuelErr, rfl⟩
  | succ f =>
    cases n with
    | Name id => simp [acceptedTypeShape] at h
    | Subscript v s => simp [acceptedTypeShape] at h
    | Dict k v => simp [acceptedTypeShape] at h
    | Call f a k => simp [acceptedTypeShape] at h
    | Compare left ops comps =>
      cases left with
      | Name lid =>
        have hlid : ¬ lid = "bytes" := by simpa [acceptedTypeShape] using h
        exact ⟨"Type parsing not yet implemented", by simp [scripts.parseType, hlid]⟩
      | Num nv l c => exact ⟨_, rfl⟩
      | Str s => exact ⟨_, rfl⟩
      | NameConstant b => exact ⟨_, rfl⟩
      | Attribute v a => exact ⟨_, rfl⟩
      | Subscript v s => exact ⟨_, rfl⟩
      | Index v => exact ⟨_, rfl⟩
      | List e => exact ⟨_, rfl⟩
      | Dict k v => exact ⟨_, rfl⟩
      | BinOp l o r => exact ⟨_, rfl⟩
      | BoolOp o v => exact ⟨_, rfl⟩
      | UnaryOp o v => exact ⟨_, rfl⟩
      | Compare l o c => exact ⟨_, rfl⟩
      | Call f a k => exact ⟨_, rfl⟩
    | Num nv l c => exact ⟨_, rfl⟩
    | Str s => exact ⟨_, rfl⟩
    | NameConstant b => exact ⟨_, rfl⟩
    | Attribute v a => exact ⟨_, rfl⟩
    | Index v => exact ⟨_, rfl⟩
    | List e => exact ⟨_, rfl⟩
    | BinOp l o r => exact ⟨_, rfl⟩
    | BoolOp o v => exact ⟨_, rfl⟩
    | UnaryOp o v => exact ⟨_, rfl⟩

/-- C5 witness: a string node is not an accepted type shape and `parseType`
rejects it. -/
theorem c5_witness : ∃ e, scripts.parseType [] 3 (some (.Str "x")) = .error e :=
  c5_type_shapes [] 3 (.Str "x") (by decide)

theorem tryParseReservedExpr_none (vid attr : String) (h : ¬ reservedPair vid attr) :
    scripts.tryParseReservedExpr (.Attribute (.Name vid) attr) = none := by
  simp only [scripts.tryParseReservedExpr, reservedPair] at h ⊢
  split_ifs with h1 h2 h3 <;> simp_all [List.mem_cons]

/-- C4: an attribute access `<name>.<attr>` whose pair is outside the
reserved-property whitelist and whose base is not `self` translates (in the
`scripts/` variant) to the attribute/variable-access chain
`%attribute(%var(name), attr)`, never to a reserved-property term.  The
`parser/` variant instead renders the reserved-property shape `%foo.bar` for
the non-reserved pair `foo.bar`, contradicting the claim (and its own
`ReservedExpr` grammar comment). -/
theorem c4_nonreserved_attribute_access :
    (∀ (L : List (List Char)) (fuel : ℕ) (vid attr : String),
      ¬ reservedPair vid attr → vid ≠ "self" →
      scripts.parseExpr L (fuel + 3) (.Attribute (.Name vid) attr) =
        .ok ("%attribute(" ++ ("%var(" ++ vid ++ ")") ++ ", " ++ attr ++ ")")) ∧
    parser.parseExpr [] 1 (.Attribute (.Name "foo") "bar") = .ok "%foo.bar" := by
  refine ⟨?_, by decide⟩
  intro L fuel vid attr hres hself
  have hnone := tryParseReservedExpr_none vid attr hres
  simp [scripts.parseExpr, hnone, scripts.parseVar, hself, except_pure_bind]

/-- C4 witness: the general statement applied to the pair `foo.bar`. -/
theorem c4_witness :
    scripts.parseExpr [] 3 (.Attribute (.Name "foo") "bar") =
      .ok ("%attribute(" ++ ("%var(" ++ "foo" ++ ")") ++ ", " ++ "bar" ++ ")") :=
  c4_nonreserved_attribute_access.1 [] 0 "foo" "bar" (by decide) (by decide)

/-- C3: in the `scripts/` variant, a statement node whose shape is not one of
the mapped statement forms makes `parseStmt` raise (return an error) rather
than produce output; so no IR is emitted for a program containing it.  The
claim also cites the `parser/` variant, where the same translation instead
silently returns the empty string: the statement `while True: pass` yields
`""` there, which contradicts the claim and the variant's own commented-out
raise (a known defect of that earlier draft). -/
theorem c3_unmapped_statements_raise :
    (∀ (L : List (List Char)) (fuel : ℕ) (node : Stmt) (s : String),
      mappedStmtShape node = false → ∃ e, scripts.parseStmt L fuel node s = .error e) ∧
    parser.parseStmt [] 1 (.While (.NameConstant true) [.Pass]) "  " = .ok ("", "  ") := by
  refine ⟨?_, by decide⟩
  intro L fuel node s h
  cases fuel with
  | zero => exact ⟨scripts.fuelErr, rfl⟩
  | succ f =>
    cases node with
    | AnnAssign t a => simp [mappedStmtShape] at h
    | Assign t v => simp [mappedStmtShape] at h
    | AugAssign t o v => simp [mappedStmtShape] at h
    | If t b o => simp [mappedStmtShape] at h
    | For t i b => simp [mappedStmtShape] at h
    | Break => simp [mappedStmtShape] at h
    | Pass => simp [mappedStmtShape] at h
    | Return v => simp [mappedStmtShape] at h
    | Assert t => simp [mappedStmtShape] at h
    | While t b => exact ⟨_, rfl⟩
    | FunctionDef n a d r b => exact ⟨_, rfl⟩
    | Expr v =>
      cases v with
      | Name id =>
        have hid : ¬ id = "throw" := by simpa [mappedStmtShape] using h
        exact ⟨"Unsupported Stmt format", by simp [scripts.parseStmt, hid]⟩
      | Call func args kws =>
        cases func with
        | Attribute fval fattr =>
          cases fval with
          | Name fvid =>
            have hid : ¬ fvid = "log" := by simpa [mappedStmtShape] using h
            exact ⟨"Unsupported Expr Stmt format", by simp [scripts.parseStmt, hid]⟩
          | Num nv l c => exact ⟨_, rfl⟩
          | Str s1 => exact ⟨_, rfl⟩
          | NameConstant b => exact ⟨_, rfl⟩
          | Attribute v a => exact ⟨_, rfl⟩
          | Subscript v sl => exact ⟨_, rfl⟩
          | Index v => exact ⟨_, rfl⟩
          | List e => exact ⟨_, rfl⟩
          | Dict k vv => exact ⟨_, rfl⟩
          | BinOp l o r => exact ⟨_, rfl⟩
          | BoolOp o vv => exact ⟨_, rfl⟩
          | UnaryOp o vv => exact ⟨_, rfl⟩
          | Compare l o c => exact ⟨_, rfl⟩
          | Call f2 a2 k2 => exact ⟨_, rfl⟩
        | Name fid =>
          have hid : ¬ fid = "send" ∧ ¬ fid = "selfdestruct" := by
            constructor <;> intro hh <;> simp [mappedStmtShape, hh] at h
          exact ⟨"Unsupported Expr Stmt format", by simp [scripts.parseStmt, hid.1, hid.2]⟩
        | Num nv l c => exact ⟨_, rfl⟩
        | Str s1 => exact ⟨_, rfl⟩
        | NameConstant b => exact ⟨_, rfl⟩
        | Subscript vv sl => exact ⟨_, rfl⟩
        | Index vv => exact ⟨_, rfl⟩
        | List e => exact ⟨_, rfl⟩
        | Dict k vv => exact ⟨_, rfl⟩
        | BinOp l o r => exact ⟨_, rfl⟩
        | BoolOp o vv => exact ⟨_, rfl⟩
        | UnaryOp o vv => exact ⟨_, rfl⟩
        | Compare l o c => exact ⟨_, rfl⟩
        | Call f2 a2 k2 => exact ⟨_, rfl⟩
      | Num nv l c => exact ⟨_, rfl⟩
      | Str s1 => exact ⟨_, rfl⟩
      | NameConstant b => exact ⟨_, rfl⟩
      | Attribute vv a => exact ⟨_, rfl⟩
      | Subscript vv sl => exact ⟨_, rfl⟩
      | Index vv => exact ⟨_, rfl⟩
      | List e => exact ⟨_, rfl⟩
      | Dict k vv => exact ⟨_, rfl⟩
      | BinOp l o r => exact ⟨_, rfl⟩
      | BoolOp o vv => exact ⟨_, rfl⟩
      | UnaryOp o vv => exact ⟨_, rfl⟩
      | Compare l o c => exact ⟨_, rfl⟩

/-- C3 witness: the unmapped statement `while True: pass` makes the `scripts/`
variant raise, together with the silent empty rendering of the `parser/`
variant at the same statement. -/
theorem c3_witness :
    (∃ e, scripts.parseStmt [] 5 (.While (.NameConstant true) [.Pass]) "  " = .error e) ∧
    parser.parseStmt [] 1 (.While (.NameConstant true) [.Pass]) "  " = .ok ("", "  ") :=
  ⟨c3_unmapped_statements_raise.1 [] 5 (.While (.NameConstant true) [.Pass]) "  " (by decide),
   c3_unmapped_statements_raise.2⟩

theorem hexLoop_eq_takeWhile (cs : List Char) :
    ∀ (fuel t : ℕ), cs.length ≤ t + 2 + fuel →
      hexLoop cs fuel t =
        t + ((cs.drop (t + 2)).takeWhile (fun c => hexDigits.contains c)).length := by
  intro fuel
  induction fuel with
  | zero =>
    intro t h
    have hd : cs.drop (t + 2) = [] := List.drop_eq_nil_of_le (by omega)
    simp [hexLoop, hd]
  | succ f ih =>
    intro t h
    by_cases h1 : t + 2 < cs.length
    · have hget : cs.getD (t + 2) ' ' = cs[t + 2] := List.getD_eq_getElem cs ' ' h1
      have hdrop : cs.drop (t + 2) = cs[t + 2] :: cs.drop (t + 3) :=
        List.drop_eq_getElem_cons h1
      by_cases h2 : hexDigits.contains (cs[t + 2]) = true
      · have hstep : hexLoop cs (f + 1) t = hexLoop cs f (t + 1) := by
          simp only [hexLoop]
          rw [if_pos h1, hget, if_pos h2]
        have e1 : t + 1 + 2 = t + 3 := rfl
        rw [hstep, ih (t + 1) (by omega), e1, hdrop, List.takeWhile_cons, if_pos h2]
        simp only [List.length_cons]
        omega
      · have hstop : hexLoop cs (f + 1) t = t := by
          simp only [hexLoop]
          rw [if_pos h1, hget, if_neg h2]
        rw [hstop, hdrop, List.takeWhile_cons, if_neg h2]
        simp
    · have hd : cs.drop (t + 2) = [] := List.drop_eq_nil_of_le (by omega)
      have hstop : hexLoop cs (f + 1) t = t := by
        simp only [hexLoop]
        rw [if_neg h1]
      rw [hstop, hd]
      simp

theorem take_takeWhile_length (p : Char → Bool) (l : List Char) :
    l.take ((l.takeWhile p).length) = l.takeWhile p := by
  induction l with
  | nil => rfl
  | cons a l ih =>
    by_cases h : p a
    · simp [List.takeWhile_cons, h, ih]
    · simp [List.takeWhile_cons, h]

/-- C2: for an integer literal whose source text at its recorded line and
column starts with `0x`, `parseConst` renders `%hex("<digits>")` where
`<digits>` is exactly the maximal contiguous run of hex digits after the `0x`
prefix in the raw source line, unchanged in case and content, with the `0x`
removed — independently of the parsed integer value. -/
theorem c2_hex_literal_verbatim (inputLines : List (List Char)) (lineno col_offset : ℕ)
    (n : ℤ) (rest : List Char)
    (h : (inputLines.getD (lineno - 1) []).drop col_offset = '0' :: 'x' :: rest) :
    scripts.parseConst inputLines (.Num (.Int n) lineno col_offset) =
      .ok ("%hex(\"" ++ String.mk (rest.takeWhile (fun c => hexDigits.contains c)) ++ "\")") := by
  have hloop : hexLoop ('0' :: 'x' :: rest) ('0' :: 'x' :: rest).length 0 =
      (rest.takeWhile (fun c => hexDigits.contains c)).length := by
    have h0 := hexLoop_eq_takeWhile ('0' :: 'x' :: rest) ('0' :: 'x' :: rest).length 0 (by omega)
    simpa using h0
  have htake : ('0' :: 'x' :: rest).take
      ((rest.takeWhile (fun c => hexDigits.contains c)).length + 2) =
      '0' :: 'x' :: (rest.takeWhile (fun c => hexDigits.contains c)) := by
    have e2 : (rest.takeWhile (fun c => hexDigits.contains c)).length + 2 =
        ((rest.takeWhile (fun c => hexDigits.contains c)).length + 1) + 1 := rfl
    rw [e2, List.take_succ_cons, List.take_succ_cons, take_takeWhile_length]
  simp only [scripts.parseConst, get_original_if_0x_prefixed, h]
  rw [if_pos (show List.take 2 ('0' :: 'x' :: rest) = ['0', 'x'] from rfl), hloop, htake]
  rfl

/-- C2 witness: a concrete line `x = 0xAb9z` at line 1, column 4: the rendered
constant keeps exactly the digits `Ab9`, case intact, dropping the prefix and
stopping at the first non-hex character. -/
theorem c2_witness :
    scripts.parseConst ["x = 0xAb9z".toList] (.Num (.Int 43961) 1 4) =
      .ok "%hex(\"Ab9\")" := by
  have h := c2_hex_literal_verbatim ["x = 0xAb9z".toList] 1 4 43961 ['A', 'b', '9', 'z'] rfl
  simpa using h

theorem classify_of_all_ok (nodes : List Stmt) (h : nodes.all topShapeOK = true) :
    scripts.classify nodes = .ok (nodes.filter isEventN, nodes.filter isGlobalN,
      nodes.filter isInitN, nodes.filter isDefN) := by
  induction nodes with
  | nil => rfl
  | cons node rest ih =>
    rw [List.all_cons, Bool.and_eq_true] at h
    have hrec := ih h.2
    have hn := h.1
    cases node with
    | AnnAssign t ann =>
      cases ann with
      | Call func args kws =>
        cases func with
        | Name fid =>
          by_cases hf : fid = "__log__"
          · have hb : (fid == "__log__") = true := by simp [hf]
            have hb2 : (fid != "__log__") = false := by simp [bne, hb]
            simp [scripts.classify, hf, hb, hb2, hrec, except_pure_bind, List.filter,
              isEventN, isGlobalN, isInitN, isDefN]
          · have hb : (fid == "__log__") = false := by simp [hf]
            have hb2 : (fid != "__log__") = true := by simp [bne, hb]
            simp [scripts.classify, hf, hb, hb2, hrec, except_pure_bind, List.filter,
              isEventN, isGlobalN, isInitN, isDefN]
        | Call f2 a2 k2 => simp [topShapeOK, isEventN, isGlobalN, isInitN, isDefN] at hn
        | Num nv l c => simp [topShapeOK, isEventN, isGlobalN, isInitN, isDefN] at hn
        | Str s => simp [topShapeOK, isEventN, isGlobalN, isInitN, isDefN] at hn
        | NameConstant b => simp [topShapeOK, isEventN, isGlobalN, isInitN, isDefN] at hn
        | Attribute v a => simp [topShapeOK, isEventN, isGlobalN, isInitN, isDefN] at hn
        | Subscript v s => simp [topShapeOK, isEventN, isGlobalN, isInitN, isDefN] at hn
        | Index v => simp [topShapeOK, isEventN, isGlobalN, isInitN, isDefN] at hn
        | List e => simp [topShapeOK, isEventN, isGlobalN, isInitN, isDefN] at hn
        | Dict k v => simp [topShapeOK, isEventN, isGlobalN, isInitN, isDefN] at hn
        | BinOp l o r => simp [topShapeOK, isEventN, isGlobalN, isInitN, isDefN] at hn
        | BoolOp o v => simp [topShapeOK, isEventN, isGlobalN, isInitN, isDefN] at hn
        | UnaryOp o v => simp [topShapeOK, isEventN, isGlobalN, isInitN, isDefN] at hn
        | Compare l o c => simp [topShapeOK, isEventN, isGlobalN, isInitN, isDefN] at hn
      | Name id => simp [scripts.classify, hrec, except_pure_bind, List.filter, isEventN, isGlobalN, isInitN, isDefN]
      | Num nv l c => simp [scripts.classify, hrec, except_pure_bind, List.filter, isEventN, isGlobalN, isInitN, isDefN]
      | Str s => simp [scripts.classify, hrec, except_pure_bind, List.filter, isEventN, isGlobalN, isInitN, isDefN]
      | NameConstant b => simp [scripts.classify, hrec, except_pure_bind, List.filter, isEventN, isGlobalN, isInitN, isDefN]
      | Attribute v a => simp [scripts.classify, hrec, except_pure_bind, List.filter, isEventN, isGlobalN, isInitN, isDefN]
      | Subscript v s => simp [scripts.classify, hrec, except_pure_bind, List.filter, isEventN, isGlobalN, isInitN, isDefN]
      | Index v => simp [scripts.classify, hrec, except_pure_bind, List.filter, isEventN, isGlobalN, isInitN, isDefN]
      | List e => simp [scripts.classify, hrec, except_pure_bind, List.filter, isEventN, isGlobalN, isInitN, isDefN]
      | Dict k v => simp [scripts.classify, hrec, except_pure_bind, List.filter, isEventN, isGlobalN, isInitN, isDefN]
      | BinOp l o r => simp [scripts.classify, hrec, except_pure_bind, List.filter, isEventN, isGlobalN, isInitN, isDefN]
      | BoolOp o v => simp [scripts.classify, hrec, except_pure_bind, List.filter, isEventN, isGlobalN, isInitN, isDefN]
      | UnaryOp o v => simp [scripts.classify, hrec, except_pure_bind, List.filter, isEventN, isGlobalN, isInitN, isDefN]
      | Compare l o c => simp [scripts.classify, hrec, except_pure_bind, List.filter, isEventN, isGlobalN, isInitN, isDefN]
    | FunctionDef name a d r b =>
      by_cases hf : name = "__init__"
      · have hb : (name == "__init__") = true := by simp [hf]
        have hb2 : (name != "__init__") = false := by simp [bne, hb]
        simp [scripts.classify, hf, hb, hb2, hrec, except_pure_bind, List.filter,
          isEventN, isGlobalN, isInitN, isDefN]
      · have hb : (name == "__init__") = false := by simp [hf]
        have hb2 : (name != "__init__") = true := by simp [bne, hb]
        simp [scripts.classify, hf, hb, hb2, hrec, except_pure_bind, List.filter,
          isEventN, isGlobalN, isInitN, isDefN]
    | Assign t v => simp [topShapeOK, isEventN, isGlobalN, isInitN, isDefN] at hn
    | AugAssign t o v => simp [topShapeOK, isEventN, isGlobalN, isInitN, isDefN] at hn
    | If t b o => simp [topShapeOK, isEventN, isGlobalN, isInitN, isDefN] at hn
    | For t i b => simp [topShapeOK, isEventN, isGlobalN, isInitN, isDefN] at hn
    | While t b => simp [topShapeOK, isEventN, isGlobalN, isInitN, isDefN] at hn
    | Break => simp [topShapeOK, isEventN, isGlobalN, isInitN, isDefN] at hn
    | Pass => simp [topShapeOK, isEventN, isGlobalN, isInitN, isDefN] at hn
    | Return v => simp [topShapeOK, isEventN, isGlobalN, isInitN, isDefN] at hn
    | Assert t => simp [topShapeOK, isEventN, isGlobalN, isInitN, isDefN] at hn
    | Expr v => simp [topShapeOK, isEventN, isGlobalN, isInitN, isDefN] at hn

theorem classify_of_bad (nodes : List Stmt) (h : nodes.all topShapeOK = false) :
    ∃ e, scripts.classify nodes = .error e := by
  induction nodes with
  | nil => simp [List.all_nil] at h
  | cons node rest ih =>
    rw [List.all_cons] at h
    by_cases hn : topShapeOK node = true
    · have hrest : rest.all topShapeOK = false := by
        cases hr : rest.all topShapeOK
        · rfl
        · rw [hn, hr] at h; simp at h
      obtain ⟨e, he⟩ := ih hrest
      cases node with
      | AnnAssign t ann =>
        cases ann with
        | Call func args kws =>
          cases func with
          | Name fid =>
            by_cases hf : fid = "__log__"
            · exact ⟨e, by simp [scripts.classify, hf, he, except_error_bind]⟩
            · exact ⟨e, by simp [scripts.classify, hf, he, except_error_bind]⟩
          | Num nv l c => exact ⟨_, rfl⟩
          | Str s => exact ⟨_, rfl⟩
          | NameConstant b => exact ⟨_, rfl⟩
          | Attribute v a => exact ⟨_, rfl⟩
          | Subscript v s => exact ⟨_, rfl⟩
          | Index v => exact ⟨_, rfl⟩
          | List e2 => exact ⟨_, rfl⟩
          | Dict k v => exact ⟨_, rfl⟩
          | BinOp l o r => exact ⟨_, rfl⟩
          | BoolOp o v => exact ⟨_, rfl⟩
          | UnaryOp o v => exact ⟨_, rfl⟩
          | Compare l o c => exact ⟨_, rfl⟩
          | Call f2 a2 k2 => exact ⟨_, rfl⟩
        | Name id => exact ⟨e, by simp [scripts.classify, he, except_error_bind]⟩
        | Num nv l c => exact ⟨e, by simp [scripts.classify, he, except_error_bind]⟩
        | Str s => exact ⟨e, by simp [scripts.classify, he, except_error_bind]⟩
        | NameConstant b => exact ⟨e, by simp [scripts.classify, he, except_error_bind]⟩
        | Attribute v a => exact ⟨e, by simp [scripts.classify, he, except_error_bind]⟩
        | Subscript v s => exact ⟨e, by simp [scripts.classify, he, except_error_bind]⟩
        | Index v => exact ⟨e, by simp [scripts.classify, he, except_error_bind]⟩
        | List e2 => exact ⟨e, by simp [scripts.classify, he, except_error_bind]⟩
        | Dict k v => exact ⟨e, by simp [scripts.classify, he, except_error_bind]⟩
        | BinOp l o r => exact ⟨e, by simp [scripts.classify, he, except_error_bind]⟩
        | BoolOp o v => exact ⟨e, by simp [scripts.classify, he, except_error_bind]⟩
        | UnaryOp o v => exact ⟨e, by simp [scripts.classify, he, except_error_bind]⟩
        | Compare l o c => exact ⟨e, by simp [scripts.classify, he, except_error_bind]⟩
      | FunctionDef name a d r b =>
        by_cases hf : name = "__init__"
        · exact ⟨e, by simp [scripts.classify, hf, he, except_error_bind]⟩
        · exact ⟨e, by simp [scripts.classify, hf, he, except_error_bind]⟩
      | Assign t v => simp [topShapeOK, isEventN, isGlobalN, isInitN, isDefN] at hn
      | AugAssign t o v => simp [topShapeOK, isEventN, isGlobalN, isInitN, isDefN] at hn
      | If t b o => simp [topShapeOK, isEventN, isGlobalN, isInitN, isDefN] at hn
      | For t i b => simp [topShapeOK, isEventN, isGlobalN, isInitN, isDefN] at hn
      | While t b => simp [topShapeOK, isEventN, isGlobalN, isInitN, isDefN] at hn
      | Break => simp [topShapeOK, isEventN, isGlobalN, isInitN, isDefN] at hn
      | Pass => simp [topShapeOK, isEventN, isGlobalN, isInitN, isDefN] at hn
      | Return v => simp [topShapeOK, isEventN, isGlobalN, isInitN, isDefN] at hn
      | Assert t => simp [topShapeOK, isEventN, isGlobalN, isInitN, isDefN] at hn
      | Expr v => simp [topShapeOK, isEventN, isGlobalN, isInitN, isDefN] at hn
    · -- the head itself is unclassifiable
      rw [Bool.not_eq_true] at hn
      cases node with
      | AnnAssign t ann =>
        cases ann with
        | Call func args kws =>
          cases func with
          | Name fid => simp [topShapeOK, isEventN, isGlobalN, Bool.or_eq_true] at hn
          | Num nv l c => exact ⟨_, rfl⟩
          | Str s => exact ⟨_, rfl⟩
          | NameConstant b => exact ⟨_, rfl⟩
          | Attribute v a => exact ⟨_, rfl⟩
          | Subscript v s => exact ⟨_, rfl⟩
          | Index v => exact ⟨_, rfl⟩
          | List e2 => exact ⟨_, rfl⟩
          | Dict k v => exact ⟨_, rfl⟩
          | BinOp l o r => exact ⟨_, rfl⟩
          | BoolOp o v => exact ⟨_, rfl⟩
          | UnaryOp o v => exact ⟨_, rfl⟩
          | Compare l o c => exact ⟨_, rfl⟩
          | Call f2 a2 k2 => exact ⟨_, rfl⟩
        | Name id => simp [topShapeOK, isGlobalN] at hn
        | Num nv l c => simp [topShapeOK, isGlobalN] at hn
        | Str s => simp [topShapeOK, isGlobalN] at hn
        | NameConstant b => simp [topShapeOK, isGlobalN] at hn
        | Attribute v a => simp [topShapeOK, isGlobalN] at hn
        | Subscript v s => simp [topShapeOK, isGlobalN] at hn
        | Index v => simp [topShapeOK, isGlobalN] at hn
        | List e2 => simp [topShapeOK, isGlobalN] at hn
        | Dict k v => simp [topShapeOK, isGlobalN] at hn
        | BinOp l o r => simp [topShapeOK, isGlobalN] at hn
        | BoolOp o v => simp [topShapeOK, isGlobalN] at hn
        | UnaryOp o v => simp [topShapeOK, isGlobalN] at hn
        | Compare l o c => simp [topShapeOK, isGlobalN] at hn
      | FunctionDef name a d r b =>
        simp [topShapeOK, isEventN, isGlobalN, isInitN, isDefN, Bool.or_eq_true] at hn
      | Assign t v => exact ⟨_, rfl⟩
      | AugAssign t o v => exact ⟨_, rfl⟩
      | If t b o => exact ⟨_, rfl⟩
      | For t i b => exact ⟨_, rfl⟩
      | While t b => exact ⟨_, rfl⟩
      | Break => exact ⟨_, rfl⟩
      | Pass => exact ⟨_, rfl⟩
      | Return v => exact ⟨_, rfl⟩
      | Assert t => exact ⟨_, rfl⟩
      | Expr v => exact ⟨_, rfl⟩

/-- C6: program assembly classifies the top-level declaration list in one
left-to-right scan into events (annotated declarations whose annotation calls
`__log__`), globals (other annotated declarations), init (functions named
`__init__`) and ordinary functions — the scan result equals the four shape
filters; any top-level node of another shape aborts with an error before any
rendering, so no Program term is produced; and the rendered Program
concatenates the four buckets in the fixed order events, globals, init,
functions (`renderProgram`). -/
theorem c6_program_assembly :
    (∀ (L : List (List Char)) (fuel : ℕ) (nodes : List Stmt),
      nodes.all topShapeOK = true →
      scripts.parseProgram L fuel nodes =
        scripts.renderProgram L fuel (nodes.filter isEventN) (nodes.filter isGlobalN)
          (nodes.filter isInitN) (nodes.filter isDefN)) ∧
    (∀ (L : List (List Char)) (fuel : ℕ) (nodes : List Stmt),
      nodes.all topShapeOK = false →
      ∃ e, scripts.parseProgram L fuel nodes = .error e) := by
  constructor
  · intro L fuel nodes h
    simp [scripts.parseProgram, classify_of_all_ok nodes h, except_pure_bind]
  · intro L fuel nodes h
    obtain ⟨e, he⟩ := classify_of_bad nodes h
    exact ⟨e, by simp [scripts.parseProgram, he, except_error_bind]⟩

/-- C6 witness: a two-declaration program (a global and a function) renders
through the partition, and a top-level `pass` makes the whole translation
fail. -/
theorem c6_witness :
    scripts.parseProgram [] 9 [.AnnAssign (.Name "x") (.Name "num"),
        .FunctionDef "f" [] [] none [.Pass]] =
      scripts.renderProgram [] 9
        ([.AnnAssign (.Name "x") (.Name "num"),
          .FunctionDef "f" [] [] none [.Pass]].filter isEventN)
        ([.AnnAssign (.Name "x") (.Name "num"),
          .FunctionDef "f" [] [] none [.Pass]].filter isGlobalN)
        ([.AnnAssign (.Name "x") (.Name "num"),
          .FunctionDef "f" [] [] none [.Pass]].filter isInitN)
        ([.AnnAssign (.Name "x") (.Name "num"),
          .FunctionDef "f" [] [] none [.Pass]].filter isDefN) ∧
    (∃ e, scripts.parseProgram [] 3 [.Pass] = .error e) :=
  ⟨c6_program_assembly.1 [] 9 _ (by decide), c6_program_assembly.2 [] 3 [.Pass] (by decide)⟩

theorem roundDouble_den_pos (q : Frac) : 0 < (roundDouble q).den := by
  simp only [roundDouble]
  split_ifs <;> simp

theorem floatIter_den_pos (v : Frac) (hden : 0 < v.den) : ∀ i, 0 < (floatIter v i).den := by
  intro i
  cases i with
  | zero => exact hden
  | succ j => exact roundDouble_den_pos _

theorem floatIter_value (v : Frac) (n : ℕ)
    (hex : ∀ i < n, (floatIter v (i + 1)).veq ((floatIter v i).mulI 10))
    (hden : 0 < v.den) :
    ∀ i ≤ n, (floatIter v i).num * v.den = v.num * 10 ^ i * (floatIter v i).den := by
  intro i
  induction i with
  | zero => intro _; simp [floatIter]
  | succ i ih =>
    intro hi
    have h1 := hex i (by omega)
    have h2 := ih (by omega)
    simp only [Frac.veq, Frac.mulI] at h1
    have hd0 : (floatIter v i).den ≠ 0 := ne_of_gt (floatIter_den_pos v hden i)
    have key : ((floatIter v (i + 1)).num * v.den) * (floatIter v i).den =
        (v.num * 10 ^ (i + 1) * (floatIter v (i + 1)).den) * (floatIter v i).den := by
      linear_combination v.den * h1 + 10 * (floatIter v (i + 1)).den * h2
    exact mul_right_cancel₀ hd0 key

theorem fixed10Loop_reaches (v : Frac) (n : ℕ)
    (hfr : ∀ i < n, (floatIter v i).isIntB = false)
    (hint : (floatIter v n).isIntB = true) :
    ∀ (fuel j : ℕ), j ≤ n → n ≤ j + fuel → n ≤ 10 →
      scripts.fixed10Loop fuel (floatIter v j) (10 ^ j) = (floatIter v n, 10 ^ n) := by
  intro fuel
  induction fuel with
  | zero =>
    intro j hj hnj _
    have hje : j = n := by omega
    subst hje
    rfl
  | succ f ih =>
    intro j hj hnj hn
    by_cases hjn : j = n
    · subst hjn
      simp [scripts.fixed10Loop, hint]
    · have hjlt : j < n := by omega
      have hcond1 := hfr j hjlt
      have hcond2 : (10 : ℕ) ^ j < scripts.DECIMAL_DIVISOR := by
        have h10 : (10 : ℕ) ^ j < 10 ^ 10 := Nat.pow_lt_pow_right (by norm_num) (by omega)
        simpa [scripts.DECIMAL_DIVISOR] using h10
      have hstep : scripts.fixed10Loop (f + 1) (floatIter v j) (10 ^ j) =
          scripts.fixed10Loop f (roundDouble ((floatIter v j).mulI 10)) (10 ^ j * 10) := by
        simp [scripts.fixed10Loop, hcond1, hcond2]
      rw [hstep, show roundDouble ((floatIter v j).mulI 10) = floatIter v (j + 1) from rfl,
        show (10 : ℕ) ^ j * 10 = 10 ^ (j + 1) from by ring]
      exact ih (j + 1) (by omega) (by omega) hn

theorem roundHalfEvenF_of_int (x : Frac) (hpos : 0 < x.den) (hint : x.isIntB = true) :
    roundHalfEvenF x * x.den = x.num := by
  have hr : x.num.emod x.den = 0 := by simpa [Frac.isIntB] using hint
  have hdvd : x.den ∣ x.num := Int.dvd_of_emod_eq_zero hr
  simp only [roundHalfEvenF, hr]
  rw [if_pos (by omega : 2 * (0 : ℤ) < x.den)]
  exact Int.ediv_mul_cancel hdvd

/-- C1 amended: for a decimal literal of exactly `n ≤ 10` significant
fractional digits whose float value `v` is multiplied by ten `n` times
without any IEEE-754 rounding (each product is exactly representable:
`floatIter v (i+1)` is value-equal to `floatIter v i` times ten), the
rendered constant is `%fixed10(A, 10^n)` with `A = v × 10^n` exactly — here
`∀ i < n, v·10^i` is not an integer and `v·10^n` is, which is what "exactly
`n` significant fractional digits" means for the float value the translator
receives.  Without the exact-representability proviso the loop operates on
rounded doubles and `A` deviates (see the counterexample). -/
theorem c1_fixed10_amended (v : Frac) (n : ℕ) (hden : 0 < v.den) (hn : n ≤ 10)
    (hex : ∀ i < n, (floatIter v (i + 1)).veq ((floatIter v i).mulI 10))
    (hfr : ∀ i < n, (floatIter v i).isIntB = false)
    (hint : (floatIter v n).isIntB = true) :
    ∃ A : ℤ, scripts.parseFixed10Const v =
        "%fixed10(" ++ toString A ++ ", " ++ toString ((10 : ℕ) ^ n) ++ ")" ∧
      A * v.den = v.num * 10 ^ n := by
  have hloop := fixed10Loop_reaches v n hfr hint 11 0 (by omega) (by omega) hn
  refine ⟨roundHalfEvenF (floatIter v n), ?_, ?_⟩
  · simp only [scripts.parseFixed10Const]
    have h0 : scripts.fixed10Loop 11 v 1 = (floatIter v n, 10 ^ n) := by
      simpa [floatIter] using hloop
    rw [h0]
  · have hA := roundHalfEvenF_of_int (floatIter v n) (floatIter_den_pos v hden n) hint
    have hv := floatIter_value v n hex hden n (le_refl n)
    have hdn : (floatIter v n).den ≠ 0 := ne_of_gt (floatIter_den_pos v hden n)
    have key : (roundHalfEvenF (floatIter v n) * v.den) * (floatIter v n).den =
        (v.num * 10 ^ n) * (floatIter v n).den := by
      linear_combination v.den * hA + hv
    exact mul_right_cancel₀ hdn key

/-- C1 witness: the literal `2.5` (value `5/2`, one significant fractional
digit; `2.5` and `25.0` are exactly representable doubles) renders as
`%fixed10(25, 10)` with `A = 2.5 × 10` exactly. -/
theorem c1_witness :
    ∃ A : ℤ, scripts.parseFixed10Const ⟨5, 2⟩ =
        "%fixed10(" ++ toString A ++ ", " ++ toString ((10 : ℕ) ^ 1) ++ ")" ∧
      A * (⟨5, 2⟩ : Frac).den = (⟨5, 2⟩ : Frac).num * 10 ^ 1 :=
  c1_fixed10_amended ⟨5, 2⟩ 1 (by decide) (by decide) (by decide) (by decide) (by decide)

/-- C1 counterexample: the decimal literal `4503599627370495.5` has exactly one
significant fractional digit (n = 1) and is itself exactly representable as an
IEEE-754 double (third conjunct), so the claim demands
`%fixed10(45035996273704955, 10)`; but multiplying by ten rounds to the
nearest double and the translator renders `%fixed10(45035996273704952, 10)`,
whose numerator is not the literal times ten (second conjunct), so `A/B` does
not equal the source literal. -/
theorem c1_counterexample :
    scripts.parseFixed10Const ⟨9007199254740991, 2⟩ = "%fixed10(45035996273704952, 10)" ∧
    (45035996273704952 : ℤ) * 2 ≠ 9007199254740991 * 10 ∧
    (roundDouble ⟨9007199254740991, 2⟩).veq ⟨9007199254740991, 2⟩ :=
  ⟨by decide, by decide, by decide⟩

theorem except_map_bind2 (x : Except String α) (f : α → Except String β) (g : β → γ) :
    Except.map g (x >>= f) = x >>= fun a => Except.map g (f a) := by cases x <;> rfl

theorem except_bind_map2 (x : Except String α) (f : α → β) (g : β → Except String γ) :
    (Except.map f x >>= g) = x >>= fun a => g (f a) := by cases x <;> rfl

theorem except_map_map (x : Except String α) (f : α → β) (g : β → γ) :
    Except.map g (Except.map f x) = Except.map (fun a => g (f a)) x := by cases x <;> rfl

theorem except_bind_ok2 (x : Except String α) (f : α → β) :
    (x >>= fun a => Except.ok (f a)) = Except.map f x := by cases x <;> rfl

theorem except_ok_bind2 (a : α) (f : α → Except String β) :
    (Except.ok a >>= f) = f a := rfl

theorem except_error_bind2 (e : String) (f : α → Except String β) :
    ((Except.error e : Except String α) >>= f) = Except.error e := rfl

theorem state_indent_equiv : ∀ fuel : ℕ,
    (∀ (L : List (List Char)) (node : Stmt) (s : String),
      scripts.parseStmt L fuel node s =
        (scripts.parseStmtI L fuel node s).map (fun r => (r, s))) ∧
    (∀ (L : List (List Char)) (body : List Stmt) (s : String),
      scripts.parseStmts L fuel body s =
        (scripts.parseStmtsI L fuel body (s ++ "  ")).map (fun r => (r, s))) ∧
    (∀ (L : List (List Char)) (sep : String) (body : List Stmt) (rez s : String),
      scripts.parseStmtList L fuel sep body rez s =
        (scripts.parseStmtListI L fuel sep body rez s).map (fun r => (r, s))) := by
  intro fuel
  induction fuel with
  | zero => exact ⟨fun _ _ _ => rfl, fun _ _ _ => rfl, fun _ _ _ _ _ => rfl⟩
  | succ f ih =>
    obtain ⟨ihStmt, ihStmts, ihList⟩ := ih
    refine ⟨?_, ?_, ?_⟩
    · intro L node s
      cases node <;>
        simp only [scripts.parseStmt, scripts.parseStmtI] <;>
        (repeat' split) <;>
        simp [ihStmts, except_map_bind2, except_bind_map2, except_bind_ok2, except_ok_bind2,
          except_error_bind2, except_map_map, except_map_ok, except_map_error]
    · intro L body s
      simp only [scripts.parseStmts, scripts.parseStmtsI, ihList]
      cases hI : scripts.parseStmtListI L f ("\n" ++ (s ++ "  ")) body "" (s ++ "  ") <;>
        simp [except_map_ok, except_map_error]
    · intro L sep body rez s
      cases body with
      | nil => rfl
      | cons x xs =>
        simp [scripts.parseStmtList, scripts.parseStmtListI, ihStmt, ihList,
          except_map_bind2, except_bind_map2, except_bind_ok2, except_ok_bind2,
          except_error_bind2, except_map_map, except_map_ok, except_map_error]

/-- C7: block translation saves the nesting indent and restores it on return
— the stateful translator run at indent `s` returns final state `s` — and the
rendered statements of the block sit exactly one level (two spaces) deeper
than the enclosing indent: the run equals the indent-threaded mirror
`parseStmtsI` applied at `s ++ "  "`, whose nested blocks recurse at
`ind ++ "  "`.  Concretely, `if x: pass` inside a function body indents the
`%if` at four spaces and its `%pass` body at six. -/
theorem c7_block_indent_discipline :
    (∀ (L : List (List Char)) (fuel : ℕ) (body : List Stmt) (s : String),
      scripts.parseStmts L fuel body s =
        (scripts.parseStmtsI L fuel body (s ++ "  ")).map (fun r => (r, s))) ∧
    scripts.parseStmts [] 9 [.If (.Name "x") [.Pass] []] "  " =
      .ok ("\n    %if(%var(x),\n      %pass)", "  ") := by
  refine ⟨fun L fuel body s => (state_indent_equiv fuel).2.1 L body s, by decide⟩

/-- C10 witness: a bare-name call `f(x, k=1)` with one keyword argument is
rejected with the named-parameter error. -/
theorem c10_witness :
    scripts.parseExpr [] 2 (.Call (.Name "f") [.Name "x"] [("k", .Num (.Int 1) 1 1)]) =
      .error "Calls with named parameters not yet supported" :=
  c10_keyword_args_asymmetry.1 [] 0 "f" [.Name "x"] [("k", .Num (.Int 1) 1 1)]
    (List.cons_ne_nil _ _)
